import Mathlib

/-!
Shallow embedding of the `internet-roadtrip-pathfinder` repository
(`src/math/mod.rs`, `src/math/angle.rs`, `src/model.rs`, `src/astar.rs`,
`src/roadtrip.rs`, `src/db/mod.rs`, `src/streetview/api.rs`), together with
theorems settling the specification claims about it.

Conventions of the embedding:
* Machine floating-point numbers (`f32`/`f64`) are idealized as exact real
  numbers (`ℝ`) in the transcendental geometry code, and as exact rationals
  (`ℚ`) in the purely arithmetic code (costs, headings, remainders), where
  every float value is a rational and the operations are add, sub, mul, abs
  and comparisons.
* The fixed-point `Angle(i32)` representation is idealized the same way: the
  bit pattern is kept as a real number, so `from_deg`/`to_deg` are exact
  inverses of each other.
* Rust strings are modeled as their UTF-8 byte sequences (`List Nat`), which
  matches `str::len`, `starts_with` and the base64 layer byte for byte.
* Stateful database code is modeled by explicit state passing; aborts
  (Rust panics / failed asserts) and fallible operations are modeled with
  `Option`/`Except`.
* Effectful calls made by the A* loop (the options engine, which performs
  network fetches, and the transcendental heuristic/goal kernels) are passed
  to the loop as explicit deterministic oracle functions; the loop body
  itself is translated statement by statement from `astar.rs`.
-/

/-! ## `src/math/angle.rs` and `src/model.rs`: angles and locations -/

/-- In meters, copied from `EARTH_RADIUS` in `src/math/mod.rs`. -/
noncomputable def EARTH_RADIUS : ℝ := 6378137

/-- `LAT_M_PER_DEGREE` from `src/math/mod.rs`:
latitude lines are always spaced evenly apart. -/
noncomputable def LAT_M_PER_DEGREE : ℝ := EARTH_RADIUS * (Real.pi / 180)

/-- The fixed-point scale of `Angle`: `i32::MAX`. -/
noncomputable def INT32_MAX : ℝ := 2147483647

/-- `Angle` from `src/math/angle.rs`: a fixed-point angle where
`180° -> i32::MAX`.  The `i32` bit pattern is idealized as a real number. -/
structure Angle where
  bits : ℝ

noncomputable def Angle.from_deg (deg : ℝ) : Angle :=
  ⟨deg * (INT32_MAX / 180)⟩

noncomputable def Angle.to_deg (a : Angle) : ℝ :=
  a.bits * (180 / INT32_MAX)

noncomputable def Angle.to_rad (a : Angle) : ℝ :=
  a.bits * (Real.pi / INT32_MAX)

instance : Sub Angle := ⟨fun a b => ⟨a.bits - b.bits⟩⟩

/-- `Angle::calculate_lng_m_per_degree` from `src/math/angle.rs`. -/
noncomputable def Angle.calculate_lng_m_per_degree (a : Angle) : ℝ :=
  LAT_M_PER_DEGREE * Real.cos a.to_rad

/-- `Location` from `src/model.rs`. -/
structure Location where
  lat : Angle
  lng : Angle

noncomputable def Location.new_deg (lat lng : ℝ) : Location :=
  ⟨Angle.from_deg lat, Angle.from_deg lng⟩

noncomputable def Location.lat_deg (l : Location) : ℝ := l.lat.to_deg
noncomputable def Location.lng_deg (l : Location) : ℝ := l.lng.to_deg
noncomputable def Location.lat_rad (l : Location) : ℝ := l.lat.to_rad
noncomputable def Location.lng_rad (l : Location) : ℝ := l.lng.to_rad

noncomputable def Location.calculate_lng_m_per_degree (l : Location) : ℝ :=
  l.lat.calculate_lng_m_per_degree

/-! ## `src/math/mod.rs`: distance functions -/

namespace Math

/-- `underestimate_distance_sqr` from `src/math/mod.rs`. -/
noncomputable def underestimate_distance_sqr (a b : Location)
    (approx_lng_m_per_degree : ℝ) : ℝ :=
  let lat_diff := (a.lat - b.lat).to_deg
  let lng_diff := (a.lng - b.lng).to_deg
  (lat_diff * (LAT_M_PER_DEGREE * 0.999)) ^ 2
    + (lng_diff * (approx_lng_m_per_degree * 0.999)) ^ 2

/-- `distance` from `src/math/mod.rs`: the haversine distance.  The source
computes the trigonometric reductions in `f32`; the embedding idealizes all
float arithmetic as exact real arithmetic. -/
noncomputable def distance (a b : Location) : ℝ :=
  let theta1 := a.lat_rad
  let theta2 := b.lat_rad
  let delta_theta := b.lat_rad - a.lat_rad
  let delta_lambda := b.lng_rad - a.lng_rad
  let h := Real.sin (delta_theta / 2) ^ 2
    + Real.cos theta1 * Real.cos theta2 * Real.sin (delta_lambda / 2) ^ 2
  let c := 2 * Real.arcsin (Real.sqrt h)
  EARTH_RADIUS * c

open Classical in
/-- Mathematical `f64::atan2 y x` (Rust standard library, not repository
code): the angle of the point `(x, y)` in `(-π, π]`. -/
noncomputable def atan2 (y x : ℝ) : ℝ :=
  if 0 < x then Real.arctan (y / x)
  else if x < 0 then
    (if 0 ≤ y then Real.arctan (y / x) + Real.pi
     else Real.arctan (y / x) - Real.pi)
  else
    (if 0 < y then Real.pi / 2 else if y < 0 then -(Real.pi / 2) else 0)

/-- `point_at_distance_radians` from `src/math/mod.rs`:
the spherical forward-geodesic formula. -/
noncomputable def point_at_distance_radians (pos : Location)
    (direction_radians : ℝ) (dist : ℝ) : Location :=
  let lat := pos.lat_rad
  let lng := pos.lng_rad
  let d := dist / EARTH_RADIUS
  let cos_d := Real.cos d
  let sin_d := Real.sin d
  let cos_lat := Real.cos lat
  let sin_lat := Real.sin lat
  let sin_d_cos_lat := sin_d * cos_lat
  let return_lat :=
    Real.arcsin (cos_d * sin_lat + sin_d_cos_lat * Real.cos direction_radians)
  let return_lng := lng +
    atan2 (Real.sin direction_radians * sin_d_cos_lat)
      (cos_d - sin_lat * Real.sin return_lat)
  Location.new_deg (return_lat * (180 / Real.pi)) (return_lng * (180 / Real.pi))

/-- `point_at_distance` from `src/math/mod.rs`. -/
noncomputable def point_at_distance (pos : Location) (direction : ℝ)
    (dist : ℝ) : Location :=
  point_at_distance_radians pos (direction * (Real.pi / 180)) dist

end Math

/-! ## `src/astar.rs`: node identity and the goal test -/

/-- `Pano` from `src/model.rs`, generic in the location payload so the same
structure serves the real-geometry world and the rational A* world.
`PanoId` is the interned `u32`, modeled as `Nat`. -/
structure Pano (Loc : Type) where
  id : Nat
  loc : Loc

/-- `NodeIdent` from `src/astar.rs`: a `(pano, heading)` pair.  Headings are
`f32` in the source, idealized as `ℚ`. -/
structure NodeIdent (Loc : Type) where
  pano : Pano Loc
  heading : ℚ

/-- `is_goal_reached` from `src/astar.rs`, as a proposition over the real
geometry (the source returns `bool` from `f64` comparisons). -/
noncomputable def is_goal_reached (node : NodeIdent Location)
    (goal : Location) : Prop :=
  Math.distance node.pano.loc goal < 30 ∧
    (Math.distance node.pano.loc goal < 15 ∨
      Math.distance
        (Math.point_at_distance node.pano.loc ((node.heading : ℝ) + 180) 15)
        goal < 15)

/-- C3: `is_goal_reached(n, g)` holds exactly when the distance to the goal
is below 15 m, or the distance is in `[15, 30)` and the point 15 m behind the
node (bearing `heading + 180°`) is within 15 m of the goal; in every other
case (in particular at distance at least 30 m) it is false. -/
theorem C3_is_goal_reached_characterization (node : NodeIdent Location)
    (goal : Location) :
    is_goal_reached node goal ↔
      (Math.distance node.pano.loc goal < 15 ∨
        (15 ≤ Math.distance node.pano.loc goal ∧
          Math.distance node.pano.loc goal < 30 ∧
          Math.distance
            (Math.point_at_distance node.pano.loc
              ((node.heading : ℝ) + 180) 15) goal < 15)) := by
  unfold is_goal_reached
  constructor
  · rintro ⟨h30, h15 | hbehind⟩
    · exact Or.inl h15
    · by_cases h : Math.distance node.pano.loc goal < 15
      · exact Or.inl h
      · exact Or.inr ⟨le_of_not_lt h, h30, hbehind⟩
  · rintro (h15 | ⟨_, h30, hbehind⟩)
    · exact ⟨by linarith, Or.inl h15⟩
    · exact ⟨h30, Or.inr hbehind⟩

/-! ## `src/math/mod.rs`: `calculate_heading_diff` (over `ℚ`, since it is
pure `f32` arithmetic: `%`, `abs`, subtraction and comparisons) -/

/-- Truncation toward zero, as used by Rust float `%`. -/
def ratTrunc (q : ℚ) : ℤ :=
  if 0 ≤ q then ⌊q⌋ else ⌈q⌉

/-- Rust float remainder `a % b`: `a - b * trunc (a / b)`, keeping the sign
of the dividend. -/
def rustRem (a b : ℚ) : ℚ :=
  a - b * (ratTrunc (a / b) : ℚ)

/-- `calculate_heading_diff` from `src/math/mod.rs`. -/
def calculate_heading_diff (a b : ℚ) : ℚ :=
  let a := rustRem a 360
  let b := rustRem b 360
  let diff := |a - b|
  if diff > 180 then 360 - diff else diff

/-- The claim's right-hand side: `x mod 360` in the mathematical sense
(result in `[0, 360)`). -/
def mathMod360 (x : ℚ) : ℚ :=
  x - 360 * (⌊x / 360⌋ : ℚ)

/-- C9 counterexample: at `a = 359`, `b = -359` (exactly representable in
`f32`, and Rust `%` keeps the dividend's sign), `calculate_heading_diff`
returns `-358`, which is not in `[0, 180]` and differs from
`min (|a-b| mod 360) (360 - |a-b| mod 360) = 2`. -/
theorem C9_counterexample :
    ¬ (0 ≤ calculate_heading_diff 359 (-359) ∧
        calculate_heading_diff 359 (-359) ≤ 180 ∧
        calculate_heading_diff 359 (-359) =
          min (mathMod360 |(359 : ℚ) - (-359)|)
            (360 - mathMod360 |(359 : ℚ) - (-359)|)) := by
  have hc : (⌈-((359 : ℚ) / 360)⌉ : ℤ) = 0 := by
    rw [Int.ceil_eq_zero_iff, Set.mem_Ioc]
    constructor <;> norm_num
  have h1 : calculate_heading_diff 359 (-359) = -358 := by
    simp only [calculate_heading_diff, rustRem, ratTrunc]
    norm_num [hc]
  rintro ⟨h0, _, _⟩
  rw [h1] at h0
  norm_num at h0

section C9Helpers

private lemma rustRem_nonneg_eq (a : ℚ) (ha : 0 ≤ a) :
    rustRem a 360 = a - 360 * (⌊a / 360⌋ : ℚ) := by
  unfold rustRem ratTrunc
  rw [if_pos (by positivity)]

private lemma rustRem_bounds (a : ℚ) (ha : 0 ≤ a) :
    0 ≤ rustRem a 360 ∧ rustRem a 360 < 360 := by
  rw [rustRem_nonneg_eq a ha]
  have hfl := Int.fract_nonneg (a / 360)
  have hfu := Int.fract_lt_one (a / 360)
  have hfract := Int.self_sub_floor (a / 360)
  constructor
  · nlinarith
  · nlinarith

private lemma mathMod360_bounds (x : ℚ) : 0 ≤ mathMod360 x ∧ mathMod360 x < 360 := by
  unfold mathMod360
  have hfl := Int.fract_nonneg (x / 360)
  have hfu := Int.fract_lt_one (x / 360)
  have hfract := Int.self_sub_floor (x / 360)
  constructor
  · nlinarith
  · nlinarith

/-- Two values in `[0, 360)` that are congruent mod 360 are equal. -/
private lemma congr_mod360_eq {x y : ℚ} (k : ℤ) (hx0 : 0 ≤ x) (hx1 : x < 360)
    (hy0 : 0 ≤ y) (hy1 : y < 360) (h : x - y = 360 * (k : ℚ)) : x = y := by
  have hk0 : k = 0 := by
    by_contra hk
    have h1 : (1 : ℚ) ≤ |(k : ℚ)| := by
      have : (1 : ℤ) ≤ |k| := Int.one_le_abs hk
      calc (1 : ℚ) = ((1 : ℤ) : ℚ) := by norm_num
        _ ≤ ((|k| : ℤ) : ℚ) := by exact_mod_cast this
        _ = |(k : ℚ)| := by push_cast; ring
    have habs : |x - y| < 360 := by
      rw [abs_lt]; constructor <;> linarith
    rw [h, abs_mul] at habs
    have : |(360 : ℚ)| = 360 := by norm_num
    nlinarith [abs_nonneg ((k : ℚ))]
  rw [hk0] at h
  push_cast at h
  linarith

end C9Helpers

/-- C9 amended: for nonnegative headings `a, b` (the program's headings are
in `[0, 360)`), `calculate_heading_diff a b` lies in `[0, 180]` and equals
`min (|a-b| mod 360) (360 - |a-b| mod 360)`.  (For negative inputs Rust `%`
keeps the sign and the result can be negative, see the counterexample.) -/
theorem C9_heading_diff_amended (a b : ℚ) (ha : 0 ≤ a) (hb : 0 ≤ b) :
    0 ≤ calculate_heading_diff a b ∧ calculate_heading_diff a b ≤ 180 ∧
      calculate_heading_diff a b =
        min (mathMod360 |a - b|) (360 - mathMod360 |a - b|) := by
  have hra := rustRem_bounds a ha
  have hrb := rustRem_bounds b hb
  have hrbd := mathMod360_bounds |a - b|
  set a' := rustRem a 360 with ha'
  set b' := rustRem b 360 with hb'
  set r := mathMod360 |a - b| with hr
  -- the difference of the two remainders is congruent to `a - b` mod 360
  have hk₁ : (a' - b') - (a - b) = 360 * ((⌊b / 360⌋ - ⌊a / 360⌋ : ℤ) : ℚ) := by
    rw [ha', hb', rustRem_nonneg_eq a ha, rustRem_nonneg_eq b hb]
    push_cast
    ring
  -- and `r` is congruent to `|a - b|` mod 360
  have hk₂ : r - |a - b| = 360 * ((-⌊|a - b| / 360⌋ : ℤ) : ℚ) := by
    rw [hr]; unfold mathMod360; push_cast; ring
  set k₁ : ℤ := ⌊b / 360⌋ - ⌊a / 360⌋
  set k₂ : ℤ := -⌊|a - b| / 360⌋
  -- `|a' - b'| = r` or `|a' - b'| = 360 - r`
  have hd0 : 0 ≤ |a' - b'| := abs_nonneg _
  have hd1 : |a' - b'| < 360 := by
    rw [abs_lt]; constructor <;> linarith [hra.1, hra.2, hrb.1, hrb.2]
  have hmain : |a' - b'| = r ∨ (|a' - b'| = 360 - r ∧ 0 < r) := by
    rcases abs_cases (a - b) with ⟨habs, hsgn⟩ | ⟨habs, hsgn⟩
    · -- a - b ≥ 0: a' - b' ≡ r (mod 360)
      rcases abs_cases (a' - b') with ⟨habs2, hsgn2⟩ | ⟨habs2, hsgn2⟩
      · left
        refine congr_mod360_eq (k₁ - k₂) hd0 hd1 hrbd.1 hrbd.2 ?_
        push_cast
        linarith [habs2]
      · -- a' - b' < 0, so |a' - b'| ≡ -r (mod 360)
        by_cases hr0 : r = 0
        · left
          refine congr_mod360_eq (-(k₁ - k₂)) hd0 hd1 hrbd.1 hrbd.2 ?_
          push_cast
          linarith [habs2, hr0]
        · right
          have hrpos : 0 < r := lt_of_le_of_ne hrbd.1 (Ne.symm hr0)
          refine ⟨congr_mod360_eq (-(k₁ - k₂) - 1) hd0 hd1 (by linarith)
            (by linarith [hrbd.2]) ?_, hrpos⟩
          push_cast
          linarith [habs2]
    · -- a - b ≤ 0: a' - b' ≡ -r (mod 360)
      rcases abs_cases (a' - b') with ⟨habs2, hsgn2⟩ | ⟨habs2, hsgn2⟩
      · by_cases hr0 : r = 0
        · left
          refine congr_mod360_eq (k₁ + k₂) hd0 hd1 hrbd.1 hrbd.2 ?_
          push_cast
          linarith [habs2, hr0]
        · right
          have hrpos : 0 < r := lt_of_le_of_ne hrbd.1 (Ne.symm hr0)
          refine ⟨congr_mod360_eq (k₁ + k₂ - 1) hd0 hd1 (by linarith)
            (by linarith [hrbd.2]) ?_, hrpos⟩
          push_cast
          linarith [habs2]
      · left
        refine congr_mod360_eq (-(k₁ + k₂)) hd0 hd1 hrbd.1 hrbd.2 ?_
        push_cast
        linarith [habs2]
  -- now case on the `if` in the source
  have hresult : calculate_heading_diff a b =
      if |a' - b'| > 180 then 360 - |a' - b'| else |a' - b'| := rfl
  rw [hresult]
  rcases hmain with heq | ⟨heq, hrpos⟩
  · rw [heq]
    by_cases h : r > 180
    · rw [if_pos h]
      refine ⟨by linarith [hrbd.2], by linarith, ?_⟩
      rw [min_eq_right (by linarith : (360 - r : ℚ) ≤ r)]
    · rw [if_neg h]
      push_neg at h
      refine ⟨hrbd.1, h, ?_⟩
      rw [min_eq_left (by linarith : (r : ℚ) ≤ 360 - r)]
  · rw [heq]
    by_cases h : (360 - r : ℚ) > 180
    · rw [if_pos h]
      refine ⟨by linarith, by linarith, ?_⟩
      rw [min_eq_left (by linarith : (r : ℚ) ≤ 360 - r)]
      linarith
    · rw [if_neg h]
      push_neg at h
      refine ⟨by linarith [hrbd.2], by linarith, ?_⟩
      rw [min_eq_right (by linarith : (360 - r : ℚ) ≤ r)]

/-- C9 witness: the amended theorem applied at `a = 30`, `b = 400`
(diff `370 mod 360 = 10`). -/
theorem C9_witness :
    (0 : ℚ) ≤ 30 ∧ (0 : ℚ) ≤ 400 ∧
      (0 ≤ calculate_heading_diff 30 400 ∧ calculate_heading_diff 30 400 ≤ 180 ∧
        calculate_heading_diff 30 400 =
          min (mathMod360 |(30 : ℚ) - 400|) (360 - mathMod360 |(30 : ℚ) - 400|)) :=
  ⟨by norm_num, by norm_num, C9_heading_diff_amended 30 400 (by norm_num) (by norm_num)⟩

/-! ## `src/streetview/api.rs`: pano-id strings

Rust strings are modeled as their UTF-8 byte sequences (`List Nat`), which
matches `str::len()`, `starts_with` and the base64 layer byte for byte. -/

/-- The bytes of `"CAoS"`. -/
def strCAoS : List Nat := [67, 65, 111, 83]

/-- The bytes of `"CIHM0og"`. -/
def strCIHM0og : List Nat := [67, 73, 72, 77, 48, 111, 103]

/-- The bytes of `"CIAB"`. -/
def strCIAB : List Nat := [67, 73, 65, 66]

/-- `is_third_party_pano` from `src/streetview/api.rs`. -/
def is_third_party_pano (pano_id : List Nat) : Bool :=
  strCIHM0og.isPrefixOf pano_id || strCIAB.isPrefixOf pano_id
    || decide (pano_id.length > 22)

/-- The value of one base64 alphabet character (standard alphabet), `none`
for a byte outside the alphabet. -/
def b64Val (c : Nat) : Option Nat :=
  if 65 ≤ c ∧ c ≤ 90 then some (c - 65)        -- A-Z
  else if 97 ≤ c ∧ c ≤ 122 then some (c - 71)  -- a-z
  else if 48 ≤ c ∧ c ≤ 57 then some (c + 4)    -- 0-9
  else if c = 43 then some 62                  -- +
  else if c = 47 then some 63                  -- /
  else none

/-- Decoder for `BASE64_STANDARD.decode` (the `base64` crate's standard
engine: canonical `=` padding required, length a multiple of 4, trailing
bits must be zero). -/
def b64DecodeChunks : List Nat → Option (List Nat)
  | [] => some []
  | c0 :: c1 :: c2 :: c3 :: rest =>
    match b64Val c0, b64Val c1 with
    | some v0, some v1 =>
      if c2 = 61 then
        -- a final chunk of the shape xx==
        if c3 = 61 ∧ rest = [] ∧ v1 % 16 = 0 then
          some [v0 * 4 + v1 / 16]
        else none
      else
        match b64Val c2 with
        | some v2 =>
          if c3 = 61 then
            -- a final chunk of the shape xxx=
            if rest = [] ∧ v2 % 4 = 0 then
              some [v0 * 4 + v1 / 16, v1 % 16 * 16 + v2 / 4]
            else none
          else
            match b64Val c3 with
            | some v3 =>
              (b64DecodeChunks rest).map
                (fun tail => (v0 * 4 + v1 / 16) :: (v1 % 16 * 16 + v2 / 4) ::
                  (v2 % 4 * 64 + v3) :: tail)
            | none => none
        | none => none
    | _, _ => none
  | _ => none

/-- `BASE64_STANDARD.decode`. -/
def base64Decode (s : List Nat) : Option (List Nat) :=
  b64DecodeChunks s

/-- `pano_id.replace('.', "=")` on bytes (`'.'` is 46, `'='` is 61). -/
def replaceDots (s : List Nat) : List Nat :=
  s.map (fun c => if c = 46 then 61 else c)

/-- Whether a byte is a UTF-8 continuation byte (`0x80..=0xBF`). -/
def isUtf8Cont (b : Nat) : Bool :=
  decide (128 ≤ b ∧ b ≤ 191)

/-- The UTF-8 encoding of U+FFFD, the replacement character. -/
def utf8Replacement : List Nat := [239, 191, 189]

/-- `String::from_utf8_lossy(bytes).to_string()` (Rust standard library, not
repository code), at the byte level: valid UTF-8 sequences pass through
unchanged, each maximal invalid subpart becomes U+FFFD.  The fuel is the
length of the list; every step consumes at least one byte. -/
def utf8LossyAux : Nat → List Nat → List Nat
  | 0, _ => []
  | _ + 1, [] => []
  | fuel + 1, b0 :: rest =>
    if b0 < 128 then b0 :: utf8LossyAux fuel rest
    else if 194 ≤ b0 ∧ b0 ≤ 223 then
      -- two-byte sequence
      match rest with
      | b1 :: rest2 =>
        if isUtf8Cont b1 then b0 :: b1 :: utf8LossyAux fuel rest2
        else utf8Replacement ++ utf8LossyAux fuel rest
      | [] => utf8Replacement
    else if 224 ≤ b0 ∧ b0 ≤ 239 then
      -- three-byte sequence; the allowed range of the second byte depends
      -- on the first (overlong encodings and surrogates are invalid)
      match rest with
      | b1 :: rest2 =>
        let b1ok :=
          if b0 = 224 then decide (160 ≤ b1 ∧ b1 ≤ 191)
          else if b0 = 237 then decide (128 ≤ b1 ∧ b1 ≤ 159)
          else isUtf8Cont b1
        if b1ok then
          match rest2 with
          | b2 :: rest3 =>
            if isUtf8Cont b2 then b0 :: b1 :: b2 :: utf8LossyAux fuel rest3
            else utf8Replacement ++ utf8LossyAux fuel rest2
          | [] => utf8Replacement
        else utf8Replacement ++ utf8LossyAux fuel rest
      | [] => utf8Replacement
    else if 240 ≤ b0 ∧ b0 ≤ 244 then
      -- four-byte sequence
      match rest with
      | b1 :: rest2 =>
        let b1ok :=
          if b0 = 240 then decide (144 ≤ b1 ∧ b1 ≤ 191)
          else if b0 = 244 then decide (128 ≤ b1 ∧ b1 ≤ 143)
          else isUtf8Cont b1
        if b1ok then
          match rest2 with
          | b2 :: rest3 =>
            if isUtf8Cont b2 then
              match rest3 with
              | b3 :: rest4 =>
                if isUtf8Cont b3 then b0 :: b1 :: b2 :: b3 :: utf8LossyAux fuel rest4
                else utf8Replacement ++ utf8LossyAux fuel rest3
              | [] => utf8Replacement
            else utf8Replacement ++ utf8LossyAux fuel rest2
          | [] => utf8Replacement
        else utf8Replacement ++ utf8LossyAux fuel rest
      | [] => utf8Replacement
    else
      -- stray continuation byte or invalid lead byte
      utf8Replacement ++ utf8LossyAux fuel rest

/-- `String::from_utf8_lossy(bytes).to_string()` at the byte level. -/
def utf8Lossy (s : List Nat) : List Nat :=
  utf8LossyAux s.length s

/-- `decode_protobuf_pano` from `src/streetview/api.rs`.  Returns `none`
when the Rust code would panic (slice index out of range). -/
def decode_protobuf_pano (pano_id : List Nat) : Option (List Nat) :=
  if ¬ strCAoS.isPrefixOf pano_id ∨ pano_id.length ≤ 22 then some pano_id
  else
    match base64Decode (replaceDots pano_id) with
    | none => some pano_id
    | some bytes =>
      match bytes.findIdx? (fun b => b = 18) with
      | none => some pano_id
      | some tag_pos =>
        match bytes.get? (tag_pos + 1) with
        | none => some pano_id
        | some len =>
          let string_start := tag_pos + 2
          if string_start + len ≤ bytes.length then
            some (utf8Lossy ((bytes.drop string_start).take len))
          else
            none

/-! ## `src/db/mod.rs`: pano-id interning

The LMDB environment is modeled by explicit state passing: `pano_ids` is the
`pano_ids` table (an association list keyed by the upstream string id, with
at most one binding per key, as for any KV store), and `next_pano_id_bytes`
is the raw value stored under `settings/"next-pano-id"`. -/

structure DbState where
  pano_ids : List (List Nat × Nat)
  next_pano_id_bytes : List Nat

/-- `u32::to_le_bytes`. -/
def u32ToLeBytes (n : Nat) : List Nat :=
  [n % 256, n / 256 % 256, n / 65536 % 256, n / 16777216 % 256]

/-- `u32::from_le_bytes` of a byte slice, `none` unless it has exactly 4
bytes (the source `expect`s this). -/
def u32FromLeBytes : List Nat → Option Nat
  | [b0, b1, b2, b3] => some (b0 + 256 * b1 + 65536 * b2 + 16777216 * b3)
  | _ => none

/-- The read half of `DB::next_pano_id`: missing key (`unwrap_or_default`,
empty bytes) means 0, otherwise the bytes must be a `u32`. -/
def read_next_pano_id (st : DbState) : Option Nat :=
  if st.next_pano_id_bytes = [] then some 0
  else u32FromLeBytes st.next_pano_id_bytes

/-- `DB::next_pano_id`: returns the current counter and stores the counter
plus one (`checked_add`: overflow is a panic, modeled as `none`). -/
def next_pano_id (st : DbState) : Option (Nat × DbState) :=
  match read_next_pano_id st with
  | none => none
  | some n =>
    if n < 4294967295 then
      some (n, { st with next_pano_id_bytes := u32ToLeBytes (n + 1) })
    else none

/-- A KV `put`: replaces the binding for the key, or appends a new one. -/
def putAssoc : List (List Nat × Nat) → List Nat → Nat → List (List Nat × Nat)
  | [], k, v => [(k, v)]
  | (k0, v0) :: rest, k, v =>
    if k0 = k then (k, v) :: rest else (k0, v0) :: putAssoc rest k v

/-- `DB::get_pano_id_with_txn` from `src/db/mod.rs` (`get_pano_id` commits
the same computation).  `none` models a panic: a failed
`assert!(expected_pano_id < 2u32.pow(31))`, a counter overflow, or a panic
inside `decode_protobuf_pano`. -/
def get_pano_id (st : DbState) (str_pano_id : List Nat) : Option (Nat × DbState) :=
  match decode_protobuf_pano str_pano_id with
  | none => none
  | some sid =>
    match List.lookup sid st.pano_ids with
    | some pano_id => some (pano_id, st)
    | none =>
      match next_pano_id st with
      | none => none
      | some (expected, st1) =>
        if expected < 2 ^ 31 then
          let pid := if is_third_party_pano sid then expected + 2 ^ 31 else expected
          some (pid, { st1 with pano_ids := putAssoc st1.pano_ids sid pid })
        else none

section DbHelpers

private lemma lookup_putAssoc_self (l : List (List Nat × Nat)) (k : List Nat)
    (v : Nat) : List.lookup k (putAssoc l k v) = some v := by
  induction l with
  | nil => simp [putAssoc]
  | cons hd tl ih =>
    obtain ⟨k0, v0⟩ := hd
    by_cases h : k0 = k
    · simp [putAssoc, h]
    · have hki : (k == k0) = false := by
        simp [beq_eq_false_iff_ne]
        exact fun hk => h hk.symm
      simp [putAssoc, h, List.lookup, hki, ih]

private lemma u32_le_round_trip (n : Nat) (h : n < 4294967296) :
    u32FromLeBytes (u32ToLeBytes n) = some n := by
  simp only [u32ToLeBytes, u32FromLeBytes]
  congr 1
  omega

end DbHelpers

/-- C7: `get_pano_id` first normalizes the id with `decode_protobuf_pano`.
If the normalized id is already interned, the stored id is returned and the
state (in particular the counter) is unchanged.  Otherwise, given the
counter `c < 2^31`, it returns an id whose low 31 bits are `c` and whose top
bit is set iff `is_third_party_pano` holds of the normalized id, stores the
mapping, and increments the counter by exactly one.  The counter never
decreases, and a second call with the same string returns the same id. -/
theorem C7_get_pano_id_characterization (st : DbState) (s norm : List Nat)
    (c : Nat) (hdec : decode_protobuf_pano s = some norm)
    (hc : read_next_pano_id st = some c) (hlt : c < 2 ^ 31) :
    (∀ v, List.lookup norm st.pano_ids = some v →
        get_pano_id st s = some (v, st)) ∧
    (List.lookup norm st.pano_ids = none →
        ∃ pid st1, get_pano_id st s = some (pid, st1) ∧
          pid % 2 ^ 31 = c ∧
          (pid / 2 ^ 31 = 1 ↔ is_third_party_pano norm = true) ∧
          read_next_pano_id st1 = some (c + 1) ∧
          List.lookup norm st1.pano_ids = some pid) ∧
    (∀ pid st1, get_pano_id st s = some (pid, st1) →
        ∃ c1, read_next_pano_id st1 = some c1 ∧ c ≤ c1) ∧
    (∀ pid st1, get_pano_id st s = some (pid, st1) →
        ∃ st2, get_pano_id st1 s = some (pid, st2)) := by
  have hover : c < 4294967295 := by omega
  have hnext : next_pano_id st =
      some (c, { st with next_pano_id_bytes := u32ToLeBytes (c + 1) }) := by
    simp only [next_pano_id, hc]
    rw [if_pos hover]
  have hread1 : read_next_pano_id
      { st with next_pano_id_bytes := u32ToLeBytes (c + 1) } = some (c + 1) := by
    simp only [read_next_pano_id, u32ToLeBytes]
    rw [if_neg (by simp)]
    exact u32_le_round_trip (c + 1) (by omega)
  constructor
  · intro v hv
    simp only [get_pano_id, hdec, hv]
  constructor
  · intro hnone
    refine ⟨(if is_third_party_pano norm then c + 2 ^ 31 else c),
      DbState.mk
        (putAssoc st.pano_ids norm
          (if is_third_party_pano norm then c + 2 ^ 31 else c))
        (u32ToLeBytes (c + 1)), ?_, ?_, ?_, ?_, ?_⟩
    · simp only [get_pano_id, hdec, hnone, hnext]
      rw [if_pos hlt]
    · by_cases h3 : is_third_party_pano norm <;> simp [h3] <;> omega
    · by_cases h3 : is_third_party_pano norm <;> simp [h3] <;> omega
    · exact hread1
    · exact lookup_putAssoc_self _ _ _
  constructor
  · intro pid st1 hcall
    cases hlook : List.lookup norm st.pano_ids with
    | some v =>
      have : get_pano_id st s = some (v, st) := by
        simp only [get_pano_id, hdec, hlook]
      rw [this] at hcall
      cases hcall
      exact ⟨c, hc, le_refl c⟩
    | none =>
      have : get_pano_id st s =
          some ((if is_third_party_pano norm then c + 2 ^ 31 else c),
            { st with
              pano_ids := putAssoc st.pano_ids norm
                (if is_third_party_pano norm then c + 2 ^ 31 else c),
              next_pano_id_bytes := u32ToLeBytes (c + 1) }) := by
        simp only [get_pano_id, hdec, hlook, hnext]
        rw [if_pos hlt]
      rw [this] at hcall
      cases hcall
      exact ⟨c + 1, hread1, by omega⟩
  · intro pid st1 hcall
    cases hlook : List.lookup norm st.pano_ids with
    | some v =>
      have heq : get_pano_id st s = some (v, st) := by
        simp only [get_pano_id, hdec, hlook]
      rw [heq] at hcall
      cases hcall
      exact ⟨st, heq⟩
    | none =>
      have heq : get_pano_id st s =
          some ((if is_third_party_pano norm then c + 2 ^ 31 else c),
            { st with
              pano_ids := putAssoc st.pano_ids norm
                (if is_third_party_pano norm then c + 2 ^ 31 else c),
              next_pano_id_bytes := u32ToLeBytes (c + 1) }) := by
        simp only [get_pano_id, hdec, hlook, hnext]
        rw [if_pos hlt]
      rw [heq] at hcall
      cases hcall
      refine ⟨DbState.mk
        (putAssoc st.pano_ids norm
          (if is_third_party_pano norm then c + 2 ^ 31 else c))
        (u32ToLeBytes (c + 1)), ?_⟩
      simp only [get_pano_id, hdec, lookup_putAssoc_self]

/-- C7 witness: the characterization applied to the empty database and the
(non-protobuf-wrapped) id `"abc"`. -/
theorem C7_witness :
    decode_protobuf_pano [97, 98, 99] = some [97, 98, 99] ∧
    read_next_pano_id ⟨[], []⟩ = some 0 ∧ 0 < 2 ^ 31 ∧
    ((∀ v, List.lookup [97, 98, 99] (DbState.mk [] []).pano_ids = some v →
        get_pano_id ⟨[], []⟩ [97, 98, 99] = some (v, ⟨[], []⟩)) ∧
      (List.lookup [97, 98, 99] (DbState.mk [] []).pano_ids = none →
        ∃ pid st1, get_pano_id ⟨[], []⟩ [97, 98, 99] = some (pid, st1) ∧
          pid % 2 ^ 31 = 0 ∧
          (pid / 2 ^ 31 = 1 ↔ is_third_party_pano [97, 98, 99] = true) ∧
          read_next_pano_id st1 = some (0 + 1) ∧
          List.lookup [97, 98, 99] st1.pano_ids = some pid) ∧
      (∀ pid st1, get_pano_id ⟨[], []⟩ [97, 98, 99] = some (pid, st1) →
        ∃ c1, read_next_pano_id st1 = some c1 ∧ 0 ≤ c1) ∧
      (∀ pid st1, get_pano_id ⟨[], []⟩ [97, 98, 99] = some (pid, st1) →
        ∃ st2, get_pano_id st1 [97, 98, 99] = some (pid, st2))) :=
  ⟨by decide, by decide, by norm_num,
    C7_get_pano_id_characterization ⟨[], []⟩ [97, 98, 99] [97, 98, 99] 0
      (by decide) (by decide) (by norm_num)⟩

/-! ## C8: protobuf pano-id decoding -/

section C8Helpers

/-- Any valid base64 payload of an id starting with `"CAoS"` begins with the
bytes `[8, 10, 18]` (so the first `0x12` tag is at index 2). -/
private lemma base64_CAoS_structure (s : List Nat) (hpre : strCAoS.isPrefixOf s) :
    base64Decode (replaceDots s) =
      (b64DecodeChunks (replaceDots (s.drop 4))).map
        (fun tail => 8 :: 10 :: 18 :: tail) := by
  rw [List.isPrefixOf_iff_prefix] at hpre
  obtain ⟨t, ht⟩ := hpre
  subst ht
  simp only [strCAoS, List.cons_append, List.nil_append, List.drop_succ_cons,
    List.drop_zero, replaceDots, List.map_cons, base64Decode]
  norm_num [b64DecodeChunks, b64Val]

end C8Helpers

/-- The C8 counterexample input: `"CAoS"` followed by twenty `'!'` bytes;
it starts with `"CAoS"` and has length 24 > 22, but is not valid base64. -/
def c8CexInput : List Nat := strCAoS ++ List.replicate 20 33

/-- C8 counterexample: the claim asserts that every id starting with
`"CAoS"` of length > 22 decodes to the substring following the first `0x12`
tag byte of its base64 decoding.  For `c8CexInput` no such decoding exists
(base64 decoding fails), and the source returns the id unchanged instead. -/
theorem C8_counterexample :
    strCAoS.isPrefixOf c8CexInput = true ∧ 22 < c8CexInput.length ∧
      decode_protobuf_pano c8CexInput = some c8CexInput ∧
      ¬ ∃ bytes tag_pos len,
          base64Decode (replaceDots c8CexInput) = some bytes ∧
          bytes.findIdx? (fun b => b = 18) = some tag_pos ∧
          bytes.get? (tag_pos + 1) = some len ∧
          decode_protobuf_pano c8CexInput =
            some (utf8Lossy ((bytes.drop (tag_pos + 2)).take len)) := by
  refine ⟨by decide, by decide, by decide, ?_⟩
  rintro ⟨bytes, tag_pos, len, hb, -, -, -⟩
  have hn : base64Decode (replaceDots c8CexInput) = none := by decide
  rw [hn] at hb
  exact Option.noConfusion hb

/-- C8 amended: ids not starting with `"CAoS"` or of length at most 22 are
returned unchanged; ids of the protobuf form whose base64 decoding (after
replacing `'.'` with `'='`) fails are also returned unchanged; and when the
decoding succeeds, the decoded bytes start with `[8, 10, 18]`, so the first
`0x12` tag byte is at index 2, the next byte is the length, and (when that
length fits in the decoded bytes) the result is the UTF-8 substring of that
length following them.  (Out-of-range lengths are a panic, modeled `none`.) -/
theorem C8_decode_protobuf_amended :
    (∀ s : List Nat, ¬ (strCAoS.isPrefixOf s = true ∧ 22 < s.length) →
        decode_protobuf_pano s = some s) ∧
    (∀ s : List Nat, strCAoS.isPrefixOf s = true → 22 < s.length →
        base64Decode (replaceDots s) = none → decode_protobuf_pano s = some s) ∧
    (∀ s bytes, strCAoS.isPrefixOf s = true → 22 < s.length →
        base64Decode (replaceDots s) = some bytes →
        bytes.take 3 = [8, 10, 18] ∧
        bytes.findIdx? (fun b => b = 18) = some 2 ∧
        (∀ len, bytes.get? 3 = some len → 4 + len ≤ bytes.length →
          decode_protobuf_pano s =
            some (utf8Lossy ((bytes.drop 4).take len)))) := by
  refine ⟨?_, ?_, ?_⟩
  · intro s hns
    rw [decode_protobuf_pano, if_pos]
    rcases Decidable.not_and_iff_or_not.mp hns with h | h
    · exact Or.inl (by simpa using h)
    · exact Or.inr (by omega)
  · intro s hpre hlen hnone
    rw [decode_protobuf_pano, if_neg (by simp [hpre]; omega)]
    simp only [hnone]
  · intro s bytes hpre hlen hsome
    rw [base64_CAoS_structure s hpre] at hsome
    rw [Option.map_eq_some'] at hsome
    obtain ⟨tail, htail, hbytes⟩ := hsome
    subst hbytes
    refine ⟨rfl, by simp [List.findIdx?_cons], ?_⟩
    intro len hget hfit
    rw [decode_protobuf_pano, if_neg (by simp [hpre]; omega)]
    rw [base64_CAoS_structure s hpre, htail]
    have hfind : List.findIdx? (fun b => decide (b = 18)) (8 :: 10 :: 18 :: tail)
        = some 2 := by
      simp [List.findIdx?_cons]
    simp only [Option.map_some', hfind, Nat.reduceAdd, hget]
    rw [if_pos (by simpa using hfit)]

/-- A concrete protobuf-wrapped pano id: the base64 (with `'='` written
`'.'`) of `[8, 10, 18, 16] ++ "abcdefghijklmnop"`. -/
def c8WitnessInput : List Nat :=
  [67, 65, 111, 83, 69, 71, 70, 105, 89, 50, 82, 108, 90, 109, 100, 111,
   97, 87, 112, 114, 98, 71, 49, 117, 98, 51, 65, 46]

/-- The decoded payload of `c8WitnessInput`. -/
def c8WitnessBytes : List Nat :=
  [8, 10, 18, 16, 97, 98, 99, 100, 101, 102, 103, 104, 105, 106, 107, 108,
   109, 110, 111, 112]

/-- C8 witness: the amended theorem applied to `c8WitnessInput`, whose
base64 decoding succeeds; the decode strips the envelope and returns the
inner 16-byte id `"abcdefghijklmnop"`. -/
theorem C8_witness :
    strCAoS.isPrefixOf c8WitnessInput = true ∧ 22 < c8WitnessInput.length ∧
      base64Decode (replaceDots c8WitnessInput) = some c8WitnessBytes ∧
      c8WitnessBytes.get? 3 = some 16 ∧ 4 + 16 ≤ c8WitnessBytes.length ∧
      decode_protobuf_pano c8WitnessInput =
        some (utf8Lossy ((c8WitnessBytes.drop 4).take 16)) :=
  ⟨by decide, by decide, by decide, by decide, by decide,
    (C8_decode_protobuf_amended.2.2 c8WitnessInput c8WitnessBytes
      (by decide) (by decide) (by decide)).2.2 16 (by decide) (by decide)⟩

/-! ## `src/roadtrip.rs`: `find_closest_pano` -/

/-- `PanoWithBothLocations` from `src/model.rs`. -/
structure PanoWithBothLocations where
  id : Nat
  search_loc : Location
  actual_loc : Location

open Classical in
/-- The scanning loop of `find_closest_pano` from `src/roadtrip.rs`.  The
state is `(closest_pano, max_dist, max_dist_sqr)`; the list pairs each
candidate with its precomputed underestimated squared distance. -/
noncomputable def find_closest_pano_loop (loc : Location) :
    List (PanoWithBothLocations × ℝ) →
      Option PanoWithBothLocations × ℝ × ℝ →
      Option PanoWithBothLocations × ℝ × ℝ
  | [], st => st
  | (candidate_pano, underestimated_distance_sqr) :: rest,
      (closest_pano, max_dist, max_dist_sqr) =>
    if underestimated_distance_sqr > max_dist_sqr then
      -- fast path: this pano is definitely farther away than closest_pano
      find_closest_pano_loop loc rest (closest_pano, max_dist, max_dist_sqr)
    else
      let distance_to_forward := Math.distance candidate_pano.search_loc loc
      match closest_pano with
      | some _ =>
        if distance_to_forward < max_dist then
          find_closest_pano_loop loc rest
            (some candidate_pano, distance_to_forward, distance_to_forward ^ 2)
        else
          find_closest_pano_loop loc rest (closest_pano, max_dist, max_dist_sqr)
      | none =>
        find_closest_pano_loop loc rest
          (some candidate_pano, distance_to_forward, distance_to_forward ^ 2)

open Classical in
/-- `find_closest_pano` from `src/roadtrip.rs`.  The `min_by_key(to_bits)`
over the (nonnegative) `f64` underestimates is the numeric minimum, here
`List.min?`.  The final panic branch is modeled as `Except.error`. -/
noncomputable def find_closest_pano (candidate_panos : List PanoWithBothLocations)
    (loc : Location) (max_dist : ℝ) (approx_lng_m_per_degree : ℝ) :
    Except String (Option PanoWithBothLocations) :=
  let original_max_dist_sqr := max_dist ^ 2
  let underestimated_dists_sqr := candidate_panos.map
    (fun p => Math.underestimate_distance_sqr p.search_loc loc approx_lng_m_per_degree)
  match underestimated_dists_sqr.min? with
  | none => Except.ok none
  | some nearest_underestimated_dist_sqr =>
    if nearest_underestimated_dist_sqr > original_max_dist_sqr then Except.ok none
    else
      -- 1.001 is enough to make it an overestimate
      let max_dist_sqr := min (nearest_underestimated_dist_sqr * 1.001)
        original_max_dist_sqr
      match (find_closest_pano_loop loc
          (candidate_panos.zip underestimated_dists_sqr)
          (none, Real.sqrt max_dist_sqr, max_dist_sqr)).1 with
      | some closest_pano => Except.ok (some closest_pano)
      | none => Except.error "overestimated pano was not actually an overestimate"

open Classical in
/-- Modelled from the claim for C6: the leftmost candidate of minimum
geodesic distance to `loc`. -/
noncomputable def argminDist (loc : Location) :
    List PanoWithBothLocations → Option PanoWithBothLocations
  | [] => none
  | p :: rest =>
    match argminDist loc rest with
    | none => some p
    | some q =>
      if Math.distance q.search_loc loc < Math.distance p.search_loc loc then
        some q
      else some p

open Classical in
/-- Modelled from the claim for C6: the naive reference function, returning
`none` when no candidate has underestimated squared distance at most
`max_dist ^ 2` and otherwise the candidate of minimum geodesic distance
among those candidates. -/
noncomputable def find_closest_pano_naive
    (candidate_panos : List PanoWithBothLocations) (loc : Location)
    (max_dist : ℝ) (approx_lng_m_per_degree : ℝ) :
    Option PanoWithBothLocations :=
  argminDist loc (candidate_panos.filter
    (fun p => decide (Math.underestimate_distance_sqr p.search_loc loc
      approx_lng_m_per_degree ≤ max_dist ^ 2)))

section FindClosestHelpers

private lemma fcp_dist_nonneg (a b : Location) : 0 ≤ Math.distance a b := by
  unfold Math.distance
  simp only []
  have h1 : (0 : ℝ) ≤ Real.arcsin (Real.sqrt
      (Real.sin ((b.lat_rad - a.lat_rad) / 2) ^ 2 +
        Real.cos a.lat_rad * Real.cos b.lat_rad *
          Real.sin ((b.lng_rad - a.lng_rad) / 2) ^ 2)) :=
    Real.arcsin_nonneg.mpr (Real.sqrt_nonneg _)
  have hR : (0 : ℝ) ≤ EARTH_RADIUS := by unfold EARTH_RADIUS; norm_num
  nlinarith

private lemma fcp_under_nonneg (a b : Location) (m : ℝ) :
    0 ≤ Math.underestimate_distance_sqr a b m := by
  unfold Math.underestimate_distance_sqr
  positivity

private lemma fcp_loop_cons (loc : Location) (q : PanoWithBothLocations)
    (uq : ℝ) (tl : List (PanoWithBothLocations × ℝ))
    (cl : Option PanoWithBothLocations) (md ms : ℝ) :
    find_closest_pano_loop loc ((q, uq) :: tl) (cl, md, ms) =
      if uq > ms then find_closest_pano_loop loc tl (cl, md, ms)
      else
        match cl with
        | some _ =>
          if Math.distance q.search_loc loc < md then
            find_closest_pano_loop loc tl
              (some q, Math.distance q.search_loc loc,
                Math.distance q.search_loc loc ^ 2)
          else find_closest_pano_loop loc tl (cl, md, ms)
        | none =>
          find_closest_pano_loop loc tl
            (some q, Math.distance q.search_loc loc,
              Math.distance q.search_loc loc ^ 2) := rfl

/-- Once a candidate has been accepted, the loop returns a candidate of
minimal distance among the accepted one and the rest of the list, provided
every remaining underestimate really underestimates the squared distance. -/
private lemma fcp_loop_accepted (loc : Location) :
    ∀ (l : List (PanoWithBothLocations × ℝ)),
      (∀ pu ∈ l, pu.2 ≤ Math.distance pu.1.search_loc loc ^ 2) →
      ∀ c : PanoWithBothLocations,
      ∃ p, (find_closest_pano_loop loc l
          (some c, Math.distance c.search_loc loc,
            Math.distance c.search_loc loc ^ 2)).1 = some p ∧
        (p = c ∨ p ∈ l.map Prod.fst) ∧
        Math.distance p.search_loc loc ≤ Math.distance c.search_loc loc ∧
        ∀ x ∈ l.map Prod.fst,
          Math.distance p.search_loc loc ≤ Math.distance x.search_loc loc := by
  intro l
  induction l with
  | nil =>
    intro _ c
    exact ⟨c, rfl, Or.inl rfl, le_refl _, by simp⟩
  | cons hd tl ih =>
    obtain ⟨q, uq⟩ := hd
    intro hl c
    have hq : uq ≤ Math.distance q.search_loc loc ^ 2 := hl (q, uq) (by simp)
    have htl : ∀ pu ∈ tl, pu.2 ≤ Math.distance pu.1.search_loc loc ^ 2 :=
      fun pu hpu => hl pu (by simp [hpu])
    rw [fcp_loop_cons]
    by_cases hskip : uq > Math.distance c.search_loc loc ^ 2
    · -- skipped candidates are strictly farther than the accepted one
      have hqc : Math.distance c.search_loc loc < Math.distance q.search_loc loc := by
        have hsq : Math.distance c.search_loc loc ^ 2 <
            Math.distance q.search_loc loc ^ 2 := lt_of_lt_of_le hskip hq
        exact lt_of_pow_lt_pow_left₀ 2 (fcp_dist_nonneg _ _) hsq
      rw [if_pos hskip]
      obtain ⟨p, hp, hmem, hle, hall⟩ := ih htl c
      refine ⟨p, hp, ?_, hle, ?_⟩
      · rcases hmem with h | h
        · exact Or.inl h
        · exact Or.inr (by simp [h])
      · intro x hx
        rcases (by simpa using hx : x = q ∨ x ∈ tl.map Prod.fst) with rfl | hx2
        · exact le_of_lt (lt_of_le_of_lt hle hqc)
        · exact hall x hx2
    · rw [if_neg hskip]
      by_cases hlt : Math.distance q.search_loc loc < Math.distance c.search_loc loc
      · rw [if_pos hlt]
        obtain ⟨p, hp, hmem, hle, hall⟩ := ih htl q
        refine ⟨p, hp, ?_, ?_, ?_⟩
        · rcases hmem with h | h
          · exact Or.inr (by simp [h])
          · exact Or.inr (by simp [h])
        · exact le_of_lt (lt_of_le_of_lt hle hlt)
        · intro x hx
          rcases (by simpa using hx : x = q ∨ x ∈ tl.map Prod.fst) with rfl | hx2
          · exact hle
          · exact hall x hx2
      · rw [if_neg hlt]
        obtain ⟨p, hp, hmem, hle, hall⟩ := ih htl c
        refine ⟨p, hp, ?_, hle, ?_⟩
        · rcases hmem with h | h
          · exact Or.inl h
          · exact Or.inr (by simp [h])
        · intro x hx
          rcases (by simpa using hx : x = q ∨ x ∈ tl.map Prod.fst) with rfl | hx2
          · exact le_trans hle (le_of_not_lt hlt)
          · exact hall x hx2

/-- The loop never drops an accepted candidate. -/
private lemma fcp_loop_isSome (loc : Location) :
    ∀ (l : List (PanoWithBothLocations × ℝ)) (cl : Option PanoWithBothLocations)
      (md ms : ℝ), cl.isSome →
      ((find_closest_pano_loop loc l (cl, md, ms)).1).isSome := by
  intro l
  induction l with
  | nil => intro cl md ms h; exact h
  | cons hd tl ih =>
    obtain ⟨q, uq⟩ := hd
    intro cl md ms h
    rw [fcp_loop_cons]
    by_cases hskip : uq > ms
    · rw [if_pos hskip]; exact ih cl md ms h
    · rw [if_neg hskip]
      cases cl with
      | none => simp at h
      | some c =>
        by_cases hlt : Math.distance q.search_loc loc < md
        · rw [if_pos hlt]; exact ih _ _ _ rfl
        · rw [if_neg hlt]; exact ih _ _ _ rfl

/-- From the empty state, the loop accepts a candidate as soon as the list
contains one whose underestimate is within the initial bound. -/
private lemma fcp_loop_none_reaches (loc : Location) :
    ∀ (l : List (PanoWithBothLocations × ℝ)) (md ms : ℝ),
      (∃ pu ∈ l, pu.2 ≤ ms) →
      ((find_closest_pano_loop loc l (none, md, ms)).1).isSome := by
  intro l
  induction l with
  | nil => rintro md ms ⟨pu, h, -⟩; simp at h
  | cons hd tl ih =>
    obtain ⟨q, uq⟩ := hd
    rintro md ms ⟨pu, hmem, hle⟩
    rw [fcp_loop_cons]
    by_cases hskip : uq > ms
    · rw [if_pos hskip]
      rcases (by simpa using hmem : pu = (q, uq) ∨ pu ∈ tl) with rfl | htl
      · exact absurd hle (not_le.mpr hskip)
      · exact ih md ms ⟨pu, htl, hle⟩
    · rw [if_neg hskip]
      exact fcp_loop_isSome loc tl _ _ _ rfl

private lemma fcp_zip_self_map (f : PanoWithBothLocations → ℝ) :
    ∀ l : List PanoWithBothLocations,
      l.zip (l.map f) = l.map (fun p => (p, f p)) := by
  intro l
  induction l with
  | nil => rfl
  | cons hd tl ih => simp [List.zip_cons_cons, ih]

end FindClosestHelpers

section FindClosestMain

open Classical

/-- Candidates before the first one passing the initial bound are skipped
without changing the state. -/
private lemma fcp_loop_skip (loc : Location) :
    ∀ (xs rest : List (PanoWithBothLocations × ℝ)) (md ms : ℝ),
      (∀ pu ∈ xs, pu.2 > ms) →
      find_closest_pano_loop loc (xs ++ rest) (none, md, ms) =
        find_closest_pano_loop loc rest (none, md, ms) := by
  intro xs
  induction xs with
  | nil => intro rest md ms _; rfl
  | cons hd tl ih =>
    obtain ⟨q, uq⟩ := hd
    intro rest md ms hxs
    rw [List.cons_append, fcp_loop_cons,
      if_pos (hxs (q, uq) (by simp))]
    exact ih rest md ms (fun pu hpu => hxs pu (by simp [hpu]))

/-- Unfolds `find_closest_pano` to its loop once the minimum underestimate
is within bounds. -/
private lemma fcp_unfold (cs : List PanoWithBothLocations) (loc : Location)
    (M m n : ℝ)
    (hmin : (cs.map (fun p =>
      Math.underestimate_distance_sqr p.search_loc loc m)).min? = some n)
    (hle : ¬ n > M ^ 2) :
    find_closest_pano cs loc M m =
      match (find_closest_pano_loop loc
          (cs.map (fun p => (p,
            Math.underestimate_distance_sqr p.search_loc loc m)))
          (none, Real.sqrt (min (n * 1.001) (M ^ 2)),
            min (n * 1.001) (M ^ 2))).1 with
      | some p => Except.ok (some p)
      | none =>
        Except.error "overestimated pano was not actually an overestimate" := by
  unfold find_closest_pano
  simp only [fcp_zip_self_map, hmin]
  rw [if_neg hle]

/-- The shared success result: with honest underestimates, the function
returns a closest candidate among those from the first prefilter-passing
candidate onward. -/
private lemma fcp_success (cs : List PanoWithBothLocations) (loc : Location)
    (M m n : ℝ)
    (H1 : ∀ p ∈ cs, Math.underestimate_distance_sqr p.search_loc loc m ≤
      Math.distance p.search_loc loc ^ 2)
    (hmin : (cs.map (fun p =>
      Math.underestimate_distance_sqr p.search_loc loc m)).min? = some n)
    (hle : ¬ n > M ^ 2)
    (xs : List PanoWithBothLocations) (y : PanoWithBothLocations)
    (ys : List PanoWithBothLocations) (hsplit : cs = xs ++ y :: ys)
    (hxs : ∀ x ∈ xs, Math.underestimate_distance_sqr x.search_loc loc m >
      min (n * 1.001) (M ^ 2))
    (hy : Math.underestimate_distance_sqr y.search_loc loc m ≤
      min (n * 1.001) (M ^ 2)) :
    ∃ p, find_closest_pano cs loc M m = Except.ok (some p) ∧ p ∈ y :: ys ∧
      ∀ q ∈ y :: ys,
        Math.distance p.search_loc loc ≤ Math.distance q.search_loc loc := by
  rw [fcp_unfold cs loc M m n hmin hle]
  subst hsplit
  rw [List.map_append, List.map_cons]
  rw [fcp_loop_skip loc _ _ _ _
    (by intro pu hpu
        obtain ⟨x, hx, rfl⟩ := List.mem_map.mp hpu
        exact hxs x hx)]
  rw [fcp_loop_cons, if_neg (not_lt.mpr hy)]
  have hys : ∀ pu ∈ ys.map (fun p => (p,
      Math.underestimate_distance_sqr p.search_loc loc m)),
      pu.2 ≤ Math.distance pu.1.search_loc loc ^ 2 := by
    intro pu hpu
    obtain ⟨x, hx, rfl⟩ := List.mem_map.mp hpu
    exact H1 x (by simp [hx])
  obtain ⟨p, hp, hmem, hley, hall⟩ := fcp_loop_accepted loc _ hys y
  refine ⟨p, ?_, ?_, ?_⟩
  · rw [hp]
  · rcases hmem with rfl | h
    · simp
    · simp only [List.map_map] at h
      simp only [List.mem_cons]
      right
      simpa using h
  · intro q hq
    rcases (by simpa using hq : q = y ∨ q ∈ ys) with rfl | hq2
    · exact hley
    · refine hall q ?_
      simp only [List.map_map]
      simpa using hq2

/-- Splits a candidate list at its first element satisfying the bound. -/
private lemma fcp_exists_split (B : ℝ)
    (u : PanoWithBothLocations → ℝ) :
    ∀ cs : List PanoWithBothLocations, (∃ p ∈ cs, u p ≤ B) →
      ∃ xs y ys, cs = xs ++ y :: ys ∧ (∀ x ∈ xs, u x > B) ∧ u y ≤ B := by
  intro cs
  induction cs with
  | nil => rintro ⟨p, h, -⟩; simp at h
  | cons hd tl ih =>
    rintro ⟨p, hmem, hple⟩
    by_cases hhd : u hd ≤ B
    · exact ⟨[], hd, tl, rfl, by simp, hhd⟩
    · rcases (by simpa using hmem : p = hd ∨ p ∈ tl) with rfl | htl
      · exact absurd hple hhd
      · obtain ⟨xs, y, ys, heq, hxs, hy⟩ := ih ⟨p, htl, hple⟩
        refine ⟨hd :: xs, y, ys, by simp [heq], ?_, hy⟩
        intro x hx
        rcases (by simpa using hx : x = hd ∨ x ∈ xs) with rfl | hx2
        · exact lt_of_not_le hhd
        · exact hxs x hx2

/-- The minimum underestimate, when within `max_dist ^ 2`, is achieved by
some candidate that passes the initial prefilter bound. -/
private lemma fcp_min_passes (cs : List PanoWithBothLocations) (loc : Location)
    (M m n : ℝ)
    (hmin : (cs.map (fun p =>
      Math.underestimate_distance_sqr p.search_loc loc m)).min? = some n)
    (hle : ¬ n > M ^ 2) :
    ∃ p ∈ cs, Math.underestimate_distance_sqr p.search_loc loc m ≤
      min (n * 1.001) (M ^ 2) := by
  have hmem : n ∈ cs.map (fun p =>
      Math.underestimate_distance_sqr p.search_loc loc m) :=
    List.min?_mem (fun a b => min_choice a b) hmin
  obtain ⟨p, hp, hpeq⟩ := List.mem_map.mp hmem
  have hn0 : 0 ≤ n := hpeq ▸ fcp_under_nonneg _ _ _
  refine ⟨p, hp, ?_⟩
  rw [hpeq, le_min_iff]
  constructor
  · nlinarith
  · exact not_lt.mp hle

end FindClosestMain

/-- C10: `find_closest_pano` never reaches its panic branch, and on every
input where the minimum underestimated squared distance is at most
`max_dist ^ 2` (so the early `None` return is not taken), the scan accepts
at least one candidate and the function returns `Some`. -/
theorem C10_find_closest_pano_no_panic (cs : List PanoWithBothLocations)
    (loc : Location) (M m : ℝ) :
    (∀ e, find_closest_pano cs loc M m ≠ Except.error e) ∧
    (∀ n, (cs.map (fun p =>
        Math.underestimate_distance_sqr p.search_loc loc m)).min? = some n →
      n ≤ M ^ 2 → ∃ p, find_closest_pano cs loc M m = Except.ok (some p)) := by
  have hbody : ∀ n, (cs.map (fun p =>
      Math.underestimate_distance_sqr p.search_loc loc m)).min? = some n →
      n ≤ M ^ 2 → ∃ p, find_closest_pano cs loc M m = Except.ok (some p) := by
    intro n hmin hle
    obtain ⟨p0, hp0, hp0le⟩ := fcp_min_passes cs loc M m n hmin (not_lt.mpr hle)
    rw [fcp_unfold cs loc M m n hmin (not_lt.mpr hle)]
    have hsome := fcp_loop_none_reaches loc
      (cs.map (fun p => (p, Math.underestimate_distance_sqr p.search_loc loc m)))
      (Real.sqrt (min (n * 1.001) (M ^ 2))) (min (n * 1.001) (M ^ 2))
      ⟨(p0, Math.underestimate_distance_sqr p0.search_loc loc m),
        List.mem_map.mpr ⟨p0, hp0, rfl⟩, hp0le⟩
    obtain ⟨p, hp⟩ := Option.isSome_iff_exists.mp hsome
    rw [hp]
    exact ⟨p, rfl⟩
  refine ⟨?_, hbody⟩
  intro e
  cases hmin : (cs.map (fun p =>
      Math.underestimate_distance_sqr p.search_loc loc m)).min? with
  | none =>
    unfold find_closest_pano
    simp only [hmin]
    exact fun h => Except.noConfusion h
  | some n =>
    by_cases hgt : n > M ^ 2
    · unfold find_closest_pano
      simp only [hmin]
      rw [if_pos hgt]
      exact fun h => Except.noConfusion h
    · obtain ⟨p, hp⟩ := hbody n hmin (not_lt.mp hgt)
      rw [hp]
      exact fun h => Except.noConfusion h

/-- C10 witness: a single candidate at the query location itself; its
underestimate is 0, which is within `max_dist = 1`, and the function
returns it. -/
theorem C10_witness :
    ((([⟨7, Location.new_deg 0 0, Location.new_deg 0 0⟩] :
        List PanoWithBothLocations).map (fun p =>
        Math.underestimate_distance_sqr p.search_loc (Location.new_deg 0 0)
          0)).min? = some (Math.underestimate_distance_sqr
            (Location.new_deg 0 0) (Location.new_deg 0 0) 0)) ∧
      Math.underestimate_distance_sqr (Location.new_deg 0 0)
        (Location.new_deg 0 0) 0 ≤ (1 : ℝ) ^ 2 ∧
      ∃ p, find_closest_pano
        [⟨7, Location.new_deg 0 0, Location.new_deg 0 0⟩]
        (Location.new_deg 0 0) 1 0 = Except.ok (some p) := by
  have hsub : ∀ a : Angle, (a - a).to_deg = 0 := by
    intro a
    show (a.bits - a.bits) * (180 / INT32_MAX) = 0
    ring
  have h0 : Math.underestimate_distance_sqr (Location.new_deg 0 0)
      (Location.new_deg 0 0) 0 = 0 := by
    unfold Math.underestimate_distance_sqr
    simp only [hsub]
    ring
  refine ⟨by simp [List.min?], by rw [h0]; norm_num, ?_⟩
  exact (C10_find_closest_pano_no_panic _ _ _ _).2
    (Math.underestimate_distance_sqr (Location.new_deg 0 0)
      (Location.new_deg 0 0) 0)
    (by simp [List.min?]) (by rw [h0]; norm_num)

/-- C6 amended: assuming every candidate's underestimate is at most its true
squared distance, `find_closest_pano` returns `None` exactly when no
candidate's underestimate is within `max_dist ^ 2`; otherwise it returns a
candidate of minimal geodesic distance among the candidates *from the first
one passing the initial prefilter bound
`min (nearest_underestimate * 1.001) (max_dist ^ 2)` onward* — candidates
before that point are skipped by the prefilter, so the result need not be
the global minimum (see the counterexample). -/
theorem C6_find_closest_pano_amended (cs : List PanoWithBothLocations)
    (loc : Location) (M m : ℝ)
    (H1 : ∀ p ∈ cs, Math.underestimate_distance_sqr p.search_loc loc m ≤
      Math.distance p.search_loc loc ^ 2) :
    (cs = [] → find_closest_pano cs loc M m = Except.ok none) ∧
    (∀ n, (cs.map (fun p =>
        Math.underestimate_distance_sqr p.search_loc loc m)).min? = some n →
      n > M ^ 2 → find_closest_pano cs loc M m = Except.ok none) ∧
    (∀ n, (cs.map (fun p =>
        Math.underestimate_distance_sqr p.search_loc loc m)).min? = some n →
      ¬ n > M ^ 2 →
      ∀ xs y ys, cs = xs ++ y :: ys →
        (∀ x ∈ xs, Math.underestimate_distance_sqr x.search_loc loc m >
          min (n * 1.001) (M ^ 2)) →
        Math.underestimate_distance_sqr y.search_loc loc m ≤
          min (n * 1.001) (M ^ 2) →
        ∃ p, find_closest_pano cs loc M m = Except.ok (some p) ∧
          p ∈ y :: ys ∧
          ∀ q ∈ y :: ys, Math.distance p.search_loc loc ≤
            Math.distance q.search_loc loc) := by
  refine ⟨?_, ?_, ?_⟩
  · intro hnil
    subst hnil
    unfold find_closest_pano
    rfl
  · intro n hmin hgt
    unfold find_closest_pano
    simp only [hmin]
    rw [if_pos hgt]
  · intro n hmin hle xs y ys hsplit hxs hy
    exact fcp_success cs loc M m n H1 hmin hle xs y ys hsplit hxs hy

/-- C6 witness for the amended theorem: a single candidate at the query
location itself passes the prefilter immediately and is returned. -/
theorem C6_witness :
    (∀ p ∈ ([⟨7, Location.new_deg 0 0, Location.new_deg 0 0⟩] :
        List PanoWithBothLocations),
      Math.underestimate_distance_sqr p.search_loc (Location.new_deg 0 0) 0 ≤
        Math.distance p.search_loc (Location.new_deg 0 0) ^ 2) ∧
    ∃ p, find_closest_pano
        [⟨7, Location.new_deg 0 0, Location.new_deg 0 0⟩]
        (Location.new_deg 0 0) 1 0 = Except.ok (some p) ∧
      p ∈ [(⟨7, Location.new_deg 0 0, Location.new_deg 0 0⟩ :
        PanoWithBothLocations)] ∧
      ∀ q ∈ [(⟨7, Location.new_deg 0 0, Location.new_deg 0 0⟩ :
        PanoWithBothLocations)],
        Math.distance p.search_loc (Location.new_deg 0 0) ≤
          Math.distance q.search_loc (Location.new_deg 0 0) := by
  have hsub : ∀ a : Angle, (a - a).to_deg = 0 := by
    intro a
    show (a.bits - a.bits) * (180 / INT32_MAX) = 0
    ring
  have h0 : Math.underestimate_distance_sqr (Location.new_deg 0 0)
      (Location.new_deg 0 0) 0 = 0 := by
    unfold Math.underestimate_distance_sqr
    simp only [hsub]
    ring
  have H1 : ∀ p ∈ ([⟨7, Location.new_deg 0 0, Location.new_deg 0 0⟩] :
      List PanoWithBothLocations),
      Math.underestimate_distance_sqr p.search_loc (Location.new_deg 0 0) 0 ≤
        Math.distance p.search_loc (Location.new_deg 0 0) ^ 2 := by
    intro p hp
    rcases (by simpa using hp :
      p = (⟨7, Location.new_deg 0 0, Location.new_deg 0 0⟩ :
        PanoWithBothLocations)) with rfl
    rw [h0]
    positivity
  refine ⟨H1, ?_⟩
  exact (C6_find_closest_pano_amended _ _ 1 0 H1).2.2
    (Math.underestimate_distance_sqr (Location.new_deg 0 0)
      (Location.new_deg 0 0) 0)
    (by simp [List.min?]) (by rw [h0]; norm_num)
    [] _ [] rfl (by simp)
    (by rw [h0]; rw [le_min_iff]; constructor <;> norm_num)

/-! ### The C6 counterexample: the prefilter can skip the closest candidate -/

/-- The query point of the C6 counterexample: the origin. -/
noncomputable def c6Origin : Location := Location.new_deg 0 0

/-- A candidate 0.0001° of latitude from the origin (about 11 m away), whose
underestimate (at `approx_lng_m_per_degree = 0`) is positive. -/
noncomputable def c6PanoNear : PanoWithBothLocations :=
  ⟨1, Location.new_deg (1 / 10000) 0, Location.new_deg (1 / 10000) 0⟩

/-- A candidate 1° of longitude from the origin (about 111 km away), whose
underestimate at `approx_lng_m_per_degree = 0` is exactly 0. -/
noncomputable def c6PanoFar : PanoWithBothLocations :=
  ⟨2, Location.new_deg 0 1, Location.new_deg 0 1⟩

/-- The candidate list of the C6 counterexample. -/
noncomputable def c6List : List PanoWithBothLocations := [c6PanoNear, c6PanoFar]

section C6CexHelpers

private lemma c6_angle_sub_to_deg (x y : ℝ) :
    (Angle.from_deg x - Angle.from_deg y).to_deg = x - y := by
  show (x * (INT32_MAX / 180) - y * (INT32_MAX / 180)) * (180 / INT32_MAX) = x - y
  unfold INT32_MAX
  field_simp
  ring

private lemma c6_lat_rad (x y : ℝ) :
    (Location.new_deg x y).lat_rad = x * (Real.pi / 180) := by
  show (x * (INT32_MAX / 180)) * (Real.pi / INT32_MAX) = x * (Real.pi / 180)
  unfold INT32_MAX
  field_simp
  ring

private lemma c6_lng_rad (x y : ℝ) :
    (Location.new_deg x y).lng_rad = y * (Real.pi / 180) := by
  show (y * (INT32_MAX / 180)) * (Real.pi / INT32_MAX) = y * (Real.pi / 180)
  unfold INT32_MAX
  field_simp
  ring

private lemma c6_LATM_pos : 0 < LAT_M_PER_DEGREE := by
  unfold LAT_M_PER_DEGREE EARTH_RADIUS
  positivity

private lemma c6_u_near :
    Math.underestimate_distance_sqr c6PanoNear.search_loc c6Origin 0 =
      (1 / 10000 * (LAT_M_PER_DEGREE * 0.999)) ^ 2 := by
  unfold Math.underestimate_distance_sqr c6PanoNear c6Origin
  simp only [Location.new_deg, c6_angle_sub_to_deg]
  ring

private lemma c6_u_far :
    Math.underestimate_distance_sqr c6PanoFar.search_loc c6Origin 0 = 0 := by
  unfold Math.underestimate_distance_sqr c6PanoFar c6Origin
  simp only [Location.new_deg, c6_angle_sub_to_deg]
  ring

private lemma c6_u_near_pos :
    0 < Math.underestimate_distance_sqr c6PanoNear.search_loc c6Origin 0 := by
  rw [c6_u_near]
  have h : (0 : ℝ) < 1 / 10000 * (LAT_M_PER_DEGREE * 0.999) := by
    have := c6_LATM_pos
    nlinarith
  positivity

/-- The distance of a pure-latitude displacement of `δ` degrees (for small
nonnegative `δ`): the haversine formula collapses to `R * δ * π / 180`. -/
private lemma c6_dist_lat (δ : ℝ) (h0 : 0 ≤ δ) (h1 : δ ≤ 90) :
    Math.distance (Location.new_deg δ 0) (Location.new_deg 0 0) =
      EARTH_RADIUS * (δ * (Real.pi / 180)) := by
  have hpi := Real.pi_pos
  have hδr0 : 0 ≤ δ * (Real.pi / 180) / 2 := by positivity
  have hδr1 : δ * (Real.pi / 180) / 2 ≤ Real.pi / 2 := by nlinarith
  unfold Math.distance
  rw [c6_lat_rad, c6_lat_rad, c6_lng_rad, c6_lng_rad]
  simp only []
  have hE : Real.sin ((0 * (Real.pi / 180) - δ * (Real.pi / 180)) / 2) ^ 2 +
      Real.cos (δ * (Real.pi / 180)) * Real.cos (0 * (Real.pi / 180)) *
        Real.sin ((0 * (Real.pi / 180) - 0 * (Real.pi / 180)) / 2) ^ 2 =
      Real.sin (δ * (Real.pi / 180) / 2) ^ 2 := by
    rw [show (0 * (Real.pi / 180) - δ * (Real.pi / 180)) / 2 =
        -(δ * (Real.pi / 180) / 2) by ring,
      show (0 * (Real.pi / 180) - 0 * (Real.pi / 180)) / 2 = 0 by ring,
      Real.sin_neg, Real.sin_zero]
    ring
  rw [hE, Real.sqrt_sq_eq_abs,
    abs_of_nonneg (Real.sin_nonneg_of_nonneg_of_le_pi hδr0 (by nlinarith)),
    Real.arcsin_sin (by nlinarith) hδr1]
  ring

/-- The distance of a pure-longitude displacement of `L` degrees along the
equator. -/
private lemma c6_dist_lng (L : ℝ) (h0 : 0 ≤ L) (h1 : L ≤ 90) :
    Math.distance (Location.new_deg 0 L) (Location.new_deg 0 0) =
      EARTH_RADIUS * (L * (Real.pi / 180)) := by
  have hpi := Real.pi_pos
  have hLr0 : 0 ≤ L * (Real.pi / 180) / 2 := by positivity
  have hLr1 : L * (Real.pi / 180) / 2 ≤ Real.pi / 2 := by nlinarith
  unfold Math.distance
  rw [c6_lat_rad, c6_lat_rad, c6_lng_rad, c6_lng_rad]
  simp only []
  have hE : Real.sin ((0 * (Real.pi / 180) - 0 * (Real.pi / 180)) / 2) ^ 2 +
      Real.cos (0 * (Real.pi / 180)) * Real.cos (0 * (Real.pi / 180)) *
        Real.sin ((0 * (Real.pi / 180) - L * (Real.pi / 180)) / 2) ^ 2 =
      Real.sin (L * (Real.pi / 180) / 2) ^ 2 := by
    rw [show (0 * (Real.pi / 180) - L * (Real.pi / 180)) / 2 =
        -(L * (Real.pi / 180) / 2) by ring,
      show (0 * (Real.pi / 180) - 0 * (Real.pi / 180)) / 2 = 0 by ring,
      show (0 : ℝ) * (Real.pi / 180) = 0 by ring,
      Real.sin_neg, Real.sin_zero, Real.cos_zero]
    ring
  rw [hE, Real.sqrt_sq_eq_abs,
    abs_of_nonneg (Real.sin_nonneg_of_nonneg_of_le_pi hLr0 (by nlinarith)),
    Real.arcsin_sin (by nlinarith) hLr1]
  ring

end C6CexHelpers

section C6CexMain

private lemma c6_dist_near :
    Math.distance c6PanoNear.search_loc c6Origin =
      EARTH_RADIUS * (1 / 10000 * (Real.pi / 180)) :=
  c6_dist_lat (1 / 10000) (by norm_num) (by norm_num)

private lemma c6_dist_far :
    Math.distance c6PanoFar.search_loc c6Origin =
      EARTH_RADIUS * (1 * (Real.pi / 180)) :=
  c6_dist_lng 1 (by norm_num) (by norm_num)

private lemma c6_dist_near_lt_far :
    Math.distance c6PanoNear.search_loc c6Origin <
      Math.distance c6PanoFar.search_loc c6Origin := by
  rw [c6_dist_near, c6_dist_far]
  have hpi := Real.pi_pos
  unfold EARTH_RADIUS
  nlinarith

private lemma c6_H1 : ∀ p ∈ c6List,
    Math.underestimate_distance_sqr p.search_loc c6Origin 0 ≤
      Math.distance p.search_loc c6Origin ^ 2 := by
  intro p hp
  rcases (by simpa [c6List] using hp : p = c6PanoNear ∨ p = c6PanoFar) with rfl | rfl
  · rw [c6_u_near, c6_dist_near]
    have hL := c6_LATM_pos
    have hLeq : LAT_M_PER_DEGREE = EARTH_RADIUS * (Real.pi / 180) := rfl
    rw [hLeq] at hL ⊢
    nlinarith
  · rw [c6_u_far]
    positivity

private lemma c6_min_eval :
    (c6List.map (fun p =>
      Math.underestimate_distance_sqr p.search_loc c6Origin 0)).min? =
      some 0 := by
  rw [show c6List = [c6PanoNear, c6PanoFar] from rfl, List.map_cons,
    List.map_cons, List.map_nil, c6_u_far]
  show some (min (Math.underestimate_distance_sqr c6PanoNear.search_loc
    c6Origin 0) 0) = some 0
  rw [min_eq_right (le_of_lt c6_u_near_pos)]

private lemma c6_algorithm_eval :
    find_closest_pano c6List c6Origin 10000000 0 =
      Except.ok (some c6PanoFar) := by
  rw [fcp_unfold c6List c6Origin 10000000 0 0 c6_min_eval (by norm_num)]
  have hB : min ((0 : ℝ) * 1.001) ((10000000 : ℝ) ^ 2) = 0 := by norm_num
  rw [hB]
  rw [show c6List.map (fun p => (p,
      Math.underestimate_distance_sqr p.search_loc c6Origin 0)) =
    [(c6PanoNear, Math.underestimate_distance_sqr c6PanoNear.search_loc
        c6Origin 0),
      (c6PanoFar, Math.underestimate_distance_sqr c6PanoFar.search_loc
        c6Origin 0)] from rfl]
  rw [fcp_loop_cons, if_pos c6_u_near_pos]
  rw [fcp_loop_cons, if_neg (by rw [c6_u_far]; exact lt_irrefl 0)]
  rfl

private lemma c6_naive_eval :
    find_closest_pano_naive c6List c6Origin 10000000 0 = some c6PanoNear := by
  have hL := c6_LATM_pos
  have hpi2 := Real.pi_lt_d2
  have hNearLe : Math.underestimate_distance_sqr c6PanoNear.search_loc
      c6Origin 0 ≤ (10000000 : ℝ) ^ 2 := by
    rw [c6_u_near]
    have hLeq : LAT_M_PER_DEGREE = EARTH_RADIUS * (Real.pi / 180) := rfl
    have hLub : LAT_M_PER_DEGREE ≤ 112000 := by
      rw [hLeq]
      unfold EARTH_RADIUS
      nlinarith
    nlinarith
  have hFarLe : Math.underestimate_distance_sqr c6PanoFar.search_loc
      c6Origin 0 ≤ (10000000 : ℝ) ^ 2 := by
    rw [c6_u_far]
    norm_num
  unfold find_closest_pano_naive
  have hfil : c6List.filter (fun p => decide
      (Math.underestimate_distance_sqr p.search_loc c6Origin 0 ≤
        (10000000 : ℝ) ^ 2)) = [c6PanoNear, c6PanoFar] := by
    rw [show c6List = [c6PanoNear, c6PanoFar] from rfl]
    rw [List.filter_cons_of_pos (by simpa using hNearLe),
      List.filter_cons_of_pos (by simpa using hFarLe), List.filter_nil]
  rw [hfil]
  have hsingle : argminDist c6Origin [c6PanoFar] = some c6PanoFar := rfl
  show (match argminDist c6Origin [c6PanoFar] with
    | none => some c6PanoNear
    | some q =>
      if Math.distance q.search_loc c6Origin <
          Math.distance c6PanoNear.search_loc c6Origin then some q
      else some c6PanoNear) = some c6PanoNear
  rw [hsingle]
  simp only []
  rw [if_neg (not_lt.mpr (le_of_lt c6_dist_near_lt_far))]

end C6CexMain

/-- C6 counterexample: with honest underestimates (hypothesis of the claim),
`find_closest_pano` can differ from the naive reference function.  With
`approx_lng_m_per_degree = 0`, the pure-longitude candidate `c6PanoFar`
(111 km away) has underestimate exactly 0, which forces the initial
prefilter bound to 0 and makes the scan skip the earlier candidate
`c6PanoNear` (11 m away); the function returns the far candidate while the
naive reference returns the near one. -/
theorem C6_counterexample :
    (∀ p ∈ c6List,
      Math.underestimate_distance_sqr p.search_loc c6Origin 0 ≤
        Math.distance p.search_loc c6Origin ^ 2) ∧
    find_closest_pano c6List c6Origin 10000000 0 =
      Except.ok (some c6PanoFar) ∧
    find_closest_pano_naive c6List c6Origin 10000000 0 = some c6PanoNear ∧
    c6PanoNear ≠ c6PanoFar := by
  refine ⟨c6_H1, c6_algorithm_eval, c6_naive_eval, ?_⟩
  intro h
  have : (1 : Nat) = 2 := congrArg PanoWithBothLocations.id h
  exact absurd this (by norm_num)

/-! ## `src/roadtrip.rs` (`get_options`) and `src/astar.rs` (the A* loop)

The loop is translated statement by statement over `ℚ` (costs and headings
are pure float arithmetic).  Effectful or transcendental kernels are passed
as deterministic oracle parameters:
* `base` stands for `get_options_no_turnaround` (it performs network
  fetches; the option cache is required to be transparent by design),
* `heuristicFn` for `heuristic(·, goal, factor)` and `isGoalFn` for
  `is_goal_reached(·, goal)` (real-valued haversine geometry; the geometric
  `is_goal_reached` itself is verified separately as C3),
* `approxDistSqrFn loc loc2` for
  `approx_distance_sqr(loc, loc2, loc.calculate_lng_m_per_degree())`.
The location payload `Loc` is opaque to the loop, which only ever touches it
through these oracles.  Progress reporting, logging and cooperative yields
are I/O with no effect on the algorithm state and are dropped. -/

/-- `PanoOptionRes` from `src/roadtrip.rs`. -/
structure PanoOptionRes (Loc : Type) where
  pano : Pano Loc
  heading : ℚ

/-- `BasePanoOptionsRes` from `src/roadtrip.rs`. -/
structure BasePanoOptionsRes (Loc : Type) where
  options : List (PanoOptionRes Loc)

/-- `PanoOptionsRes` from `src/roadtrip.rs`. -/
structure PanoOptionsRes (Loc : Type) where
  options : List (PanoOptionRes Loc)
  turnaround : Bool

/-- `get_options` from `src/roadtrip.rs`, over the
`get_options_no_turnaround` oracle `base`. -/
def get_options {Loc : Type} (base : Pano Loc → ℚ → BasePanoOptionsRes Loc)
    (cur_pano : Pano Loc) (cur_heading : ℚ) (allow_turnaround : Bool) :
    PanoOptionsRes Loc :=
  let res := base cur_pano cur_heading
  if allow_turnaround && res.options.isEmpty then
    { options := (base cur_pano (cur_heading + 180)).options,
      turnaround := true }
  else
    { options := res.options, turnaround := false }

/-- `PathSettings` from `src/astar.rs` (the heuristic factor is folded into
the heuristic oracle; `use_option_cache` only toggles a cache required to be
transparent). -/
structure PathSettings where
  no_long_jumps : Bool
  forward_penalty_on_intersections : ℚ

/-- `NodeData` from `src/astar.rs`. -/
structure NodeData where
  came_from : Nat
  g_score : ℚ

/-- `WeightedNode` from `src/astar.rs`. -/
structure WeightedNode where
  index : Nat
  g_score : ℚ
  f_score : ℚ

/-- `u32::MAX`, the `came_from` sentinel of the start node. -/
def SENTINEL : Nat := 4294967295

/-- Pop of the `BinaryHeap` (a min-heap on `f_score`, ties arbitrary):
extracts the leftmost element of minimal `f_score`. -/
def popMin : List WeightedNode → Option (WeightedNode × List WeightedNode)
  | [] => none
  | w :: rest =>
    match popMin rest with
    | none => some (w, [])
    | some (m, rest2) =>
      if w.f_score ≤ m.f_score then some (w, rest)
      else some (m, w :: rest2)

/-- Index lookup in the `IndexMap` (equality on `(pano.id, heading)`, as the
source's `PartialEq for NodeIdent`). -/
def nodeFindIdx {Loc : Type} (nodes : List (NodeIdent Loc × NodeData))
    (key : NodeIdent Loc) : Option Nat :=
  nodes.findIdx? (fun e =>
    decide (e.1.pano.id = key.pano.id) && decide (e.1.heading = key.heading))

/-- The base per-edge cost of `src/astar.rs`: the base delays are 5 and 9
plus a latency allowance. -/
def base_neighbor_cost (neighbor_count : Nat) : ℚ :=
  match neighbor_count with
  | 1 => 5.875
  | _ => 9.625

/-- The intersection flag computed before the relaxation loop in
`src/astar.rs` (the source's for-with-break is `List.any`). -/
def is_likely_intersection_to_penalize {Loc : Type} (settings : PathSettings)
    (node_heading : ℚ) (options : List (PanoOptionRes Loc)) : Bool :=
  decide (options.length > 1) &&
    decide (settings.forward_penalty_on_intersections > 0) &&
    options.any (fun neighbor => decide (|neighbor.heading - node_heading| > 30))

/-- The per-neighbor cost accumulation of the relaxation loop in
`src/astar.rs`: base cost, first-neighbor tiebreaker, intersection
penalty. -/
def neighbor_cost {Loc : Type} (settings : PathSettings) (node_heading : ℚ)
    (options : List (PanoOptionRes Loc)) (i : Nat)
    (neighbor : PanoOptionRes Loc) : ℚ :=
  let neighbor_count := options.length
  let cost0 := base_neighbor_cost neighbor_count
  -- tiebreaker, prefer going forwards (usually the first option)
  let cost1 := if i = 0 ∧ neighbor_count > 1 then cost0 - 0.001 else cost0
  if is_likely_intersection_to_penalize settings node_heading options ∧
      |neighbor.heading - node_heading| < 30 then
    cost1 + settings.forward_penalty_on_intersections
  else cost1

/-- The relaxation loop over the current node's neighbors in `src/astar.rs`
(the `for (i, neighbor) in neighbors.options.into_iter().enumerate()`
body). -/
def astar_relax {Loc : Type} (heuristicFn : NodeIdent Loc → ℚ)
    (approxDistSqrFn : Loc → Loc → ℚ) (settings : PathSettings)
    (index : Nat) (g_score : ℚ) (node_loc : Loc) (node_heading : ℚ)
    (all_options : List (PanoOptionRes Loc)) :
    Nat → List (PanoOptionRes Loc) → List WeightedNode →
    List (NodeIdent Loc × NodeData) →
    List WeightedNode × List (NodeIdent Loc × NodeData)
  | _, [], open_set, nodes => (open_set, nodes)
  | i, neighbor :: rest, open_set, nodes =>
    if settings.no_long_jumps &&
        decide (approxDistSqrFn node_loc neighbor.pano.loc > 500 ^ 2) then
      astar_relax heuristicFn approxDistSqrFn settings index g_score node_loc
        node_heading all_options (i + 1) rest open_set nodes
    else
      let tentative_g_score := g_score +
        neighbor_cost settings node_heading all_options i neighbor
      let neighbor_node : NodeIdent Loc := ⟨neighbor.pano, neighbor.heading⟩
      match nodeFindIdx nodes neighbor_node with
      | some j =>
        match nodes[j]? with
        | none =>
          -- unreachable: `findIdx?` only returns valid indices
          astar_relax heuristicFn approxDistSqrFn settings index g_score
            node_loc node_heading all_options (i + 1) rest open_set nodes
        | some (key, data) =>
          if tentative_g_score < data.g_score then
            astar_relax heuristicFn approxDistSqrFn settings index g_score
              node_loc node_heading all_options (i + 1) rest
              (⟨j, tentative_g_score,
                tentative_g_score + heuristicFn key⟩ :: open_set)
              (nodes.set j (key, ⟨index, tentative_g_score⟩))
          else
            astar_relax heuristicFn approxDistSqrFn settings index g_score
              node_loc node_heading all_options (i + 1) rest open_set nodes
      | none =>
        astar_relax heuristicFn approxDistSqrFn settings index g_score
          node_loc node_heading all_options (i + 1) rest
          (⟨nodes.length, tentative_g_score,
            tentative_g_score + heuristicFn neighbor_node⟩ :: open_set)
          (nodes ++ [(neighbor_node, ⟨index, tentative_g_score⟩)])

/-- `reconstruct_path` from `src/astar.rs`, with explicit fuel (the source's
`while` can only terminate through the sentinel); `none` models the final
`unwrap` panicking on an invalid index, or a cyclic chain. -/
def reconstruct_path_loop {Loc : Type}
    (nodes : List (NodeIdent Loc × NodeData)) :
    Nat → Nat → List (NodeIdent Loc) → Option (List (NodeIdent Loc))
  | 0, _, _ => none
  | fuel + 1, current, full_path =>
    match nodes[current]? with
    | none => none
    | some (node, node_data) =>
      if node_data.came_from = SENTINEL then
        some ((full_path ++ [node]).reverse)
      else
        reconstruct_path_loop nodes fuel node_data.came_from
          (full_path ++ [node])

/-- `reconstruct_path` from `src/astar.rs`. -/
def reconstruct_path {Loc : Type} (nodes : List (NodeIdent Loc × NodeData))
    (current : Nat) : Option (List (NodeIdent Loc)) :=
  reconstruct_path_loop nodes (nodes.length + 1) current []

/-- The main `while let Some(...) = open_set.pop()` loop of `astar` in
`src/astar.rs`, with explicit fuel.  The second component counts responses
with `turnaround = true` (instrumentation for stating C5; it mirrors the
`if neighbors.turnaround { allow_turnaround = false }` statement). -/
def astar_loop {Loc : Type} (base : Pano Loc → ℚ → BasePanoOptionsRes Loc)
    (heuristicFn : NodeIdent Loc → ℚ) (isGoalFn : NodeIdent Loc → Bool)
    (approxDistSqrFn : Loc → Loc → ℚ) (settings : PathSettings) :
    Nat → List WeightedNode → List (NodeIdent Loc × NodeData) → Bool →
    Nat → Option (List (NodeIdent Loc)) × Nat
  | 0, _, _, _, turnarounds => (none, turnarounds)
  | fuel + 1, open_set, nodes, allow_turnaround, turnarounds =>
    match popMin open_set with
    | none => (none, turnarounds)   -- "No path found"
    | some (wn, open_rest) =>
      match nodes[wn.index]? with
      | none => (none, turnarounds) -- unreachable: `unwrap` on a bad index
      | some (node, node_data) =>
        if isGoalFn node then
          (reconstruct_path nodes wn.index, turnarounds)
        else if wn.g_score > node_data.g_score then
          -- we know of a confirmed cheaper way to get to this node
          astar_loop base heuristicFn isGoalFn approxDistSqrFn settings fuel
            open_rest nodes allow_turnaround turnarounds
        else
          let neighbors := get_options base node.pano node.heading
            allow_turnaround
          let allow2 := if neighbors.turnaround then false else allow_turnaround
          let turnarounds2 :=
            if neighbors.turnaround then turnarounds + 1 else turnarounds
          let relaxed := astar_relax heuristicFn approxDistSqrFn settings
            wn.index wn.g_score node.pano.loc node.heading neighbors.options
            0 neighbors.options open_rest nodes
          astar_loop base heuristicFn isGoalFn approxDistSqrFn settings fuel
            relaxed.1 relaxed.2 allow2 turnarounds2

/-- `astar` from `src/astar.rs` (start-pano resolution and progress plumbing
are upstream I/O; the start `NodeIdent` is taken as an argument). -/
def astar {Loc : Type} (base : Pano Loc → ℚ → BasePanoOptionsRes Loc)
    (heuristicFn : NodeIdent Loc → ℚ) (isGoalFn : NodeIdent Loc → Bool)
    (approxDistSqrFn : Loc → Loc → ℚ) (settings : PathSettings)
    (start : NodeIdent Loc) (fuel : Nat) :
    Option (List (NodeIdent Loc)) × Nat :=
  astar_loop base heuristicFn isGoalFn approxDistSqrFn settings fuel
    [⟨0, 0, 0⟩] [(start, ⟨SENTINEL, 0⟩)] true 0

/-- C4: the g-score increment of the `i`-th neighbor is the base cost
(5.875 s for a single option, 9.625 s otherwise), minus the 0.001 s
forward tiebreaker exactly when `i = 0` and there are several options, plus
`forward_penalty_on_intersections` exactly when there are several options,
the penalty is positive, some option's raw heading difference exceeds 30°
and this neighbor's is below 30°. -/
theorem C4_neighbor_cost_formula {Loc : Type} (settings : PathSettings)
    (node_heading : ℚ) (options : List (PanoOptionRes Loc)) (i : Nat)
    (neighbor : PanoOptionRes Loc) :
    neighbor_cost settings node_heading options i neighbor =
      (if options.length = 1 then (5.875 : ℚ) else 9.625)
      - (if i = 0 ∧ 1 < options.length then 0.001 else 0)
      + (if 1 < options.length ∧
            0 < settings.forward_penalty_on_intersections ∧
            (∃ o ∈ options, 30 < |o.heading - node_heading|) ∧
            |neighbor.heading - node_heading| < 30
          then settings.forward_penalty_on_intersections else 0) := by
  have hbase : base_neighbor_cost options.length =
      if options.length = 1 then (5.875 : ℚ) else 9.625 := by
    rcases options.length with _ | (_ | m) <;> simp [base_neighbor_cost]
  have hflag : is_likely_intersection_to_penalize settings node_heading
      options = true ↔
      (1 < options.length ∧ 0 < settings.forward_penalty_on_intersections ∧
        ∃ o ∈ options, 30 < |o.heading - node_heading|) := by
    unfold is_likely_intersection_to_penalize
    simp [List.any_eq_true, and_assoc]
  unfold neighbor_cost
  simp only [hbase]
  by_cases hd : |neighbor.heading - node_heading| < 30
  · by_cases hf : is_likely_intersection_to_penalize settings node_heading
        options = true
    · rw [if_pos ⟨hf, hd⟩]
      obtain ⟨hlen, hpen, hex⟩ := hflag.mp hf
      have hne1 : options.length ≠ 1 := by omega
      by_cases hi : i = 0 <;> simp [hi, hlen, hne1, hpen, hex, hd]
    · rw [if_neg (fun hc => hf hc.1)]
      have hnot : ¬ (1 < options.length ∧
          0 < settings.forward_penalty_on_intersections ∧
          (∃ o ∈ options, 30 < |o.heading - node_heading|) ∧
          |neighbor.heading - node_heading| < 30) :=
        fun hc => hf (hflag.mpr ⟨hc.1, hc.2.1, hc.2.2.1⟩)
      rw [if_neg hnot]
      by_cases ht : i = 0 ∧ options.length > 1 <;> simp [ht]
  · rw [if_neg (fun hc => hd hc.2)]
    have hnot : ¬ (1 < options.length ∧
        0 < settings.forward_penalty_on_intersections ∧
        (∃ o ∈ options, 30 < |o.heading - node_heading|) ∧
        |neighbor.heading - node_heading| < 30) :=
      fun hc => hd hc.2.2.2
    rw [if_neg hnot]
    by_cases ht : i = 0 ∧ options.length > 1 <;> simp [ht]

section C5Helpers

private lemma get_options_turnaround_iff {Loc : Type}
    (base : Pano Loc → ℚ → BasePanoOptionsRes Loc) (p : Pano Loc) (h : ℚ)
    (allow : Bool) :
    (get_options base p h allow).turnaround = true ↔
      allow = true ∧ (base p h).options = [] := by
  unfold get_options
  by_cases hc : allow && (base p h).options.isEmpty
  · rw [if_pos hc]
    simp only [Bool.and_eq_true, List.isEmpty_iff] at hc
    simpa using hc
  · rw [if_neg hc]
    simp only [Bool.and_eq_true, List.isEmpty_iff] at hc
    simpa using hc

private lemma astar_loop_turnaround_bound {Loc : Type}
    (base : Pano Loc → ℚ → BasePanoOptionsRes Loc)
    (heuristicFn : NodeIdent Loc → ℚ) (isGoalFn : NodeIdent Loc → Bool)
    (approxDistSqrFn : Loc → Loc → ℚ) (settings : PathSettings) :
    ∀ (fuel : Nat) (open_set : List WeightedNode)
      (nodes : List (NodeIdent Loc × NodeData)) (allow : Bool) (tc : Nat),
      ((allow = true ∧ tc = 0) ∨ (allow = false ∧ tc ≤ 1)) →
      (astar_loop base heuristicFn isGoalFn approxDistSqrFn settings fuel
        open_set nodes allow tc).2 ≤ 1 := by
  intro fuel
  induction fuel with
  | zero =>
    intro _ _ allow tc hinv
    rcases hinv with ⟨-, h⟩ | ⟨-, h⟩ <;> simp [astar_loop] <;> omega
  | succ n ih =>
    intro open_set nodes allow tc hinv
    have htc : tc ≤ 1 := by rcases hinv with ⟨-, h⟩ | ⟨-, h⟩ <;> omega
    rw [astar_loop]
    split
    · exact htc
    next wn open_rest hpop =>
      split
      · exact htc
      next node node_data hget =>
        by_cases hgoal : isGoalFn node
        · rw [if_pos hgoal]
          exact htc
        · rw [if_neg hgoal]
          by_cases hstale : wn.g_score > node_data.g_score
          · rw [if_pos hstale]
            exact ih open_rest nodes allow tc hinv
          · rw [if_neg hstale]
            cases hta : (get_options base node.pano node.heading
                allow).turnaround
            · simp only [hta]
              exact ih _ _ allow tc hinv
            · have hallow : allow = true :=
                ((get_options_turnaround_iff base node.pano node.heading
                  allow).mp hta).1
              have htc0 : tc = 0 := by
                rcases hinv with ⟨-, h⟩ | ⟨hf, -⟩
                · exact h
                · rw [hallow] at hf; cases hf
              simp only [hta]
              exact ih _ _ false (tc + 1) (Or.inr ⟨rfl, by omega⟩)

end C5Helpers

/-- C5: `get_options` reports `turnaround = true` exactly when turnaround
was allowed and the no-turnaround computation at the current heading
produced zero options; in that case the returned options are exactly the
no-turnaround options at `heading + 180°` (otherwise, those at `heading`).
In the A* loop, `allow_turnaround` starts true and is cleared by the first
`turnaround = true` response, after which no further turnaround response
can occur, so every search performs at most one turnaround. -/
theorem C5_turnaround_characterization (Loc : Type) :
    (∀ (base : Pano Loc → ℚ → BasePanoOptionsRes Loc) (p : Pano Loc)
        (h : ℚ) (allow : Bool),
      ((get_options base p h allow).turnaround = true ↔
        allow = true ∧ (base p h).options = []) ∧
      ((get_options base p h allow).turnaround = true →
        (get_options base p h allow).options = (base p (h + 180)).options) ∧
      ((get_options base p h allow).turnaround = false →
        (get_options base p h allow).options = (base p h).options)) ∧
    (∀ (base : Pano Loc → ℚ → BasePanoOptionsRes Loc)
        (heuristicFn : NodeIdent Loc → ℚ) (isGoalFn : NodeIdent Loc → Bool)
        (approxDistSqrFn : Loc → Loc → ℚ) (settings : PathSettings)
        (start : NodeIdent Loc) (fuel : Nat),
      (astar base heuristicFn isGoalFn approxDistSqrFn settings start
        fuel).2 ≤ 1) := by
  constructor
  · intro base p h allow
    refine ⟨get_options_turnaround_iff base p h allow, ?_, ?_⟩
    · intro hta
      obtain ⟨hallow, hempty⟩ :=
        (get_options_turnaround_iff base p h allow).mp hta
      unfold get_options
      rw [if_pos (by simp [hallow, hempty])]
    · intro hta
      unfold get_options
      by_cases hc : allow && (base p h).options.isEmpty
      · exfalso
        unfold get_options at hta
        rw [if_pos hc] at hta
        cases hta
      · rw [if_neg hc]
  · intro base heuristicFn isGoalFn approxDistSqrFn settings start fuel
    exact astar_loop_turnaround_bound base heuristicFn isGoalFn
      approxDistSqrFn settings fuel _ _ true 0 (Or.inl ⟨rfl, rfl⟩)

/-- The options oracle of the C5 witness: no options anywhere. -/
def c5Base : Pano Unit → ℚ → BasePanoOptionsRes Unit := fun _ _ => ⟨[]⟩

/-- C5 witness: with an empty options oracle, the first call with turnaround
allowed reports `turnaround = true` and returns the (empty) options at
`heading + 180°`, and a two-step A* run performs exactly one turnaround. -/
theorem C5_witness :
    (get_options c5Base ⟨0, ()⟩ 0 true).turnaround = true ∧
    (get_options c5Base ⟨0, ()⟩ 0 true).options =
      (c5Base ⟨0, ()⟩ (0 + 180)).options ∧
    (astar c5Base (fun _ => 0) (fun _ => false) (fun _ _ => 0)
      ⟨false, 0⟩ ⟨⟨0, ()⟩, 0⟩ 2).2 ≤ 1 :=
  ⟨rfl,
    ((C5_turnaround_characterization Unit).1 c5Base ⟨0, ()⟩ 0 true).2.1 rfl,
    (C5_turnaround_characterization Unit).2 c5Base (fun _ => 0)
      (fun _ => false) (fun _ _ => 0) ⟨false, 0⟩ ⟨⟨0, ()⟩, 0⟩ 2⟩

/-! ### C2: the `came_from` chains of the node map -/

/-- The stored g-score at an index (0 for an absent index). -/
def gOf {Loc : Type} (nodes : List (NodeIdent Loc × NodeData)) (i : Nat) : ℚ :=
  match nodes[i]? with
  | some e => e.2.g_score
  | none => 0

/-- The loop invariant of `astar_loop` relevant to path reconstruction:
the start node sits at index 0 with the sentinel parent and g-score 0,
g-scores are nonnegative, every other node's parent is a valid index with a
strictly smaller g-score (so parent chains are acyclic and can only end at
the start), and heap entries carry valid indices with g-scores at least the
stored ones. -/
def AstarInv {Loc : Type} (start : NodeIdent Loc)
    (open_set : List WeightedNode)
    (nodes : List (NodeIdent Loc × NodeData)) : Prop :=
  (∃ d0 : NodeData, nodes[0]? = some (start, d0) ∧ d0.came_from = SENTINEL ∧
    d0.g_score = 0) ∧
  (∀ e ∈ nodes, 0 ≤ e.2.g_score) ∧
  (∀ i e, nodes[i]? = some e → i ≠ 0 →
    e.2.came_from < nodes.length ∧ gOf nodes e.2.came_from < e.2.g_score) ∧
  (∀ w ∈ open_set, w.index < nodes.length ∧
    ∃ e, nodes[w.index]? = some e ∧ e.2.g_score ≤ w.g_score)

section C2Helpers

private lemma popMin_mem :
    ∀ (l : List WeightedNode) (w : WeightedNode) (rest : List WeightedNode),
      popMin l = some (w, rest) → w ∈ l ∧ ∀ x ∈ rest, x ∈ l := by
  intro l
  induction l with
  | nil => intro w rest h; cases h
  | cons a tl ih =>
    intro w rest h
    rw [popMin] at h
    cases hp : popMin tl with
    | none =>
      rw [hp] at h
      cases h
      exact ⟨by simp, by simp⟩
    | some pr =>
      obtain ⟨m, rest2⟩ := pr
      rw [hp] at h
      replace h : (if a.f_score ≤ m.f_score then some (a, tl)
          else some (m, a :: rest2)) = some (w, rest) := h
      by_cases hle : a.f_score ≤ m.f_score
      · rw [if_pos hle] at h
        cases h
        exact ⟨by simp, fun x hx => by simp [hx]⟩
      · rw [if_neg hle] at h
        cases h
        obtain ⟨hm, hsub⟩ := ih _ rest2 hp
        refine ⟨by simp [hm], ?_⟩
        intro x hx
        rcases List.mem_cons.mp hx with rfl | hx2
        · simp
        · simp [hsub x hx2]

private lemma neighbor_cost_pos {Loc : Type} (settings : PathSettings)
    (node_heading : ℚ) (options : List (PanoOptionRes Loc)) (i : Nat)
    (neighbor : PanoOptionRes Loc) :
    0 < neighbor_cost settings node_heading options i neighbor := by
  have hbase : ∀ n : Nat, (5.875 : ℚ) ≤ base_neighbor_cost n := by
    intro n
    rcases n with _ | (_ | m) <;> norm_num [base_neighbor_cost]
  unfold neighbor_cost
  show 0 <
    if is_likely_intersection_to_penalize settings node_heading options = true ∧
        |neighbor.heading - node_heading| < 30 then
      (if i = 0 ∧ options.length > 1 then
          base_neighbor_cost options.length - 0.001
        else base_neighbor_cost options.length) +
        settings.forward_penalty_on_intersections
    else
      (if i = 0 ∧ options.length > 1 then
          base_neighbor_cost options.length - 0.001
        else base_neighbor_cost options.length)
  have hcost1 : (5.874 : ℚ) ≤
      if i = 0 ∧ options.length > 1 then
        base_neighbor_cost options.length - 0.001
      else base_neighbor_cost options.length := by
    by_cases ht : i = 0 ∧ options.length > 1
    · rw [if_pos ht]; linarith [hbase options.length]
    · rw [if_neg ht]; linarith [hbase options.length]
  by_cases hflag : is_likely_intersection_to_penalize settings node_heading
      options = true ∧ |neighbor.heading - node_heading| < 30
  · rw [if_pos hflag]
    have hpen : 0 < settings.forward_penalty_on_intersections := by
      have h1 := hflag.1
      unfold is_likely_intersection_to_penalize at h1
      simp only [Bool.and_eq_true, decide_eq_true_eq] at h1
      exact h1.1.2
    linarith
  · rw [if_neg hflag]
    linarith

private lemma get_options_length_le {Loc : Type}
    (base : Pano Loc → ℚ → BasePanoOptionsRes Loc) (B : Nat)
    (hB : ∀ p h, ((base p h).options).length ≤ B) (p : Pano Loc) (h : ℚ)
    (allow : Bool) :
    ((get_options base p h allow).options).length ≤ B := by
  unfold get_options
  by_cases hc : allow && (base p h).options.isEmpty
  · rw [if_pos hc]; exact hB p (h + 180)
  · rw [if_neg hc]; exact hB p h

private lemma gOf_eq {Loc : Type} (nodes : List (NodeIdent Loc × NodeData))
    (i : Nat) (e : NodeIdent Loc × NodeData) (h : nodes[i]? = some e) :
    gOf nodes i = e.2.g_score := by
  unfold gOf
  rw [h]

private lemma gOf_append_left {Loc : Type}
    (nodes l : List (NodeIdent Loc × NodeData)) (c : Nat)
    (hc : c < nodes.length) : gOf (nodes ++ l) c = gOf nodes c := by
  unfold gOf
  rw [List.getElem?_append_left hc]

private lemma gOf_set {Loc : Type} (nodes : List (NodeIdent Loc × NodeData))
    (j : Nat) (x : NodeIdent Loc × NodeData) (c : Nat)
    (hj : j < nodes.length) :
    gOf (nodes.set j x) c = if c = j then x.2.g_score else gOf nodes c := by
  unfold gOf
  by_cases hc : c = j
  · subst hc
    rw [List.getElem?_set_self hj, if_pos rfl]
  · rw [List.getElem?_set_ne (fun h => hc h.symm), if_neg hc]

private lemma AstarInv_sub {Loc : Type} (start : NodeIdent Loc)
    (os os2 : List WeightedNode) (nodes : List (NodeIdent Loc × NodeData))
    (h : AstarInv start os nodes) (hsub : ∀ x ∈ os2, x ∈ os) :
    AstarInv start os2 nodes :=
  ⟨h.1, h.2.1, h.2.2.1, fun w hw => h.2.2.2 w (hsub w hw)⟩

private lemma countP_strict {α : Type} (p q : α → Bool) (l : List α)
    (hpq : ∀ x ∈ l, p x = true → q x = true) (x : α) (hx : x ∈ l)
    (hqx : q x = true) (hpx : p x = false) :
    l.countP p < l.countP q := by
  induction l with
  | nil => cases hx
  | cons a tl ih =>
    rw [List.countP_cons, List.countP_cons]
    have hle : tl.countP p ≤ tl.countP q :=
      List.countP_mono_left
        (fun y hy hpy => hpq y (List.mem_cons_of_mem a hy) hpy)
    rcases List.mem_cons.mp hx with rfl | hx2
    · rw [hpx, hqx]
      simp
      omega
    · have hlt := ih (fun y hy hpy => hpq y (List.mem_cons_of_mem a hy) hpy)
        hx2
      have hqa : (if p a = true then 1 else 0 : Nat) ≤
          if q a = true then 1 else 0 := by
        by_cases hpa : p a = true
        · rw [if_pos hpa, if_pos (hpq a (List.mem_cons_self a tl) hpa)]
        · rw [if_neg hpa]
          exact Nat.zero_le _
      exact Nat.add_lt_add_of_lt_of_le hlt hqa

/-- The number of map entries with g-score below `q` (the rank function for
`came_from` chains: it strictly decreases along a chain). -/
def countLT {Loc : Type} (nodes : List (NodeIdent Loc × NodeData))
    (q : ℚ) : Nat :=
  nodes.countP (fun e => decide (e.2.g_score < q))

private lemma countLT_strict {Loc : Type}
    (nodes : List (NodeIdent Loc × NodeData)) (c : Nat) (q : ℚ)
    (e : NodeIdent Loc × NodeData) (he : nodes[c]? = some e)
    (hlt : e.2.g_score < q) :
    countLT nodes e.2.g_score < countLT nodes q := by
  unfold countLT
  refine countP_strict _ _ _ ?_ e (List.getElem?_mem he) ?_ ?_
  · intro y hy hpy
    rw [decide_eq_true_eq] at hpy ⊢
    linarith
  · rw [decide_eq_true_eq]
    exact hlt
  · rw [decide_eq_false_iff_not]
    exact lt_irrefl _

private lemma reconstruct_ok {Loc : Type} (start : NodeIdent Loc)
    (nodes : List (NodeIdent Loc × NodeData))
    (h0 : ∃ d0 : NodeData, nodes[0]? = some (start, d0) ∧
      d0.came_from = SENTINEL)
    (h3 : ∀ i e, nodes[i]? = some e → i ≠ 0 →
      e.2.came_from < nodes.length ∧
        gOf nodes e.2.came_from < e.2.g_score)
    (hlen : nodes.length ≤ SENTINEL) :
    ∀ (k cur : Nat) (acc : List (NodeIdent Loc)),
      cur < nodes.length → countLT nodes (gOf nodes cur) < k →
      ∃ l, reconstruct_path_loop nodes k cur acc = some l ∧
        l.head? = some start := by
  intro k
  induction k with
  | zero =>
    intro cur acc hcur hcnt
    omega
  | succ k ih =>
    intro cur acc hcur hcnt
    obtain ⟨e, he⟩ : ∃ e, nodes[cur]? = some e :=
      ⟨nodes[cur], List.getElem?_eq_getElem hcur⟩
    obtain ⟨node, data⟩ := e
    have hstep : reconstruct_path_loop nodes (k + 1) cur acc =
        if data.came_from = SENTINEL then some ((acc ++ [node]).reverse)
        else reconstruct_path_loop nodes k data.came_from (acc ++ [node]) := by
      rw [reconstruct_path_loop, he]
    by_cases hs : data.came_from = SENTINEL
    · have hcur0 : cur = 0 := by
        by_contra hne
        have h := (h3 cur (node, data) he hne).1
        rw [hs] at h
        omega
      subst hcur0
      obtain ⟨d0, hd0, -⟩ := h0
      rw [hd0] at he
      cases he
      refine ⟨(acc ++ [start]).reverse, ?_, ?_⟩
      · rw [hstep, if_pos hs]
      · simp
    · have hne0 : cur ≠ 0 := by
        intro hc0
        obtain ⟨d0, hd0, hsent⟩ := h0
        rw [hc0, hd0] at he
        cases he
        exact hs hsent
      obtain ⟨hcf, hg⟩ := h3 cur (node, data) he hne0
      have hgof : gOf nodes cur = data.g_score := gOf_eq nodes cur (node, data) he
      obtain ⟨ecf, hecf⟩ : ∃ e2, nodes[data.came_from]? = some e2 :=
        ⟨nodes[data.came_from], List.getElem?_eq_getElem hcf⟩
      have hgcf : gOf nodes data.came_from = ecf.2.g_score :=
        gOf_eq nodes data.came_from ecf hecf
      have hstrict : countLT nodes (gOf nodes data.came_from) <
          countLT nodes (gOf nodes cur) := by
        rw [hgcf, hgof]
        refine countLT_strict nodes data.came_from data.g_score ecf hecf ?_
        rw [← hgcf]
        exact hg
      obtain ⟨l, hl, hh⟩ := ih data.came_from (acc ++ [node]) hcf (by omega)
      exact ⟨l, by rw [hstep, if_neg hs]; exact hl, hh⟩

private lemma reconstruct_path_head {Loc : Type} (start : NodeIdent Loc)
    (nodes : List (NodeIdent Loc × NodeData))
    (h0 : ∃ d0 : NodeData, nodes[0]? = some (start, d0) ∧
      d0.came_from = SENTINEL)
    (h3 : ∀ i e, nodes[i]? = some e → i ≠ 0 →
      e.2.came_from < nodes.length ∧
        gOf nodes e.2.came_from < e.2.g_score)
    (hlen : nodes.length ≤ SENTINEL) (cur : Nat)
    (hcur : cur < nodes.length) :
    ∃ l, reconstruct_path nodes cur = some l ∧ l.head? = some start := by
  unfold reconstruct_path
  refine reconstruct_ok start nodes h0 h3 hlen (nodes.length + 1) cur []
    hcur ?_
  have hle : countLT nodes (gOf nodes cur) ≤ nodes.length :=
    List.countP_le_length _
  omega

private lemma astar_relax_inv {Loc : Type} (heuristicFn : NodeIdent Loc → ℚ)
    (approxDistSqrFn : Loc → Loc → ℚ) (settings : PathSettings)
    (start : NodeIdent Loc) (index : Nat) (g_score : ℚ) (node_loc : Loc)
    (node_heading : ℚ) (all_options : List (PanoOptionRes Loc)) :
    ∀ (opts : List (PanoOptionRes Loc)) (i : Nat)
      (open_set : List WeightedNode)
      (nodes : List (NodeIdent Loc × NodeData)),
      AstarInv start open_set nodes →
      index < nodes.length →
      gOf nodes index ≤ g_score →
      0 ≤ g_score →
      AstarInv start
        (astar_relax heuristicFn approxDistSqrFn settings index g_score
          node_loc node_heading all_options i opts open_set nodes).1
        (astar_relax heuristicFn approxDistSqrFn settings index g_score
          node_loc node_heading all_options i opts open_set nodes).2 ∧
      nodes.length ≤
        (astar_relax heuristicFn approxDistSqrFn settings index g_score
          node_loc node_heading all_options i opts open_set nodes).2.length ∧
      (astar_relax heuristicFn approxDistSqrFn settings index g_score
          node_loc node_heading all_options i opts open_set
          nodes).2.length ≤ nodes.length + opts.length := by
  intro opts
  induction opts with
  | nil =>
    intro i open_set nodes hinv hidx hgof hg0
    rw [astar_relax]
    exact ⟨hinv, Nat.le_refl _, by simp⟩
  | cons neighbor rest ih =>
    intro i open_set nodes hinv hidx hgof hg0
    have hcost := neighbor_cost_pos settings node_heading all_options i
      neighbor
    rw [astar_relax]
    simp only [List.length_cons]
    by_cases hskip : (settings.no_long_jumps && decide
        (approxDistSqrFn node_loc neighbor.pano.loc > 500 ^ 2)) = true
    · rw [if_pos hskip]
      obtain ⟨h1, h2, h3⟩ := ih (i + 1) open_set nodes hinv hidx hgof hg0
      exact ⟨h1, h2, by omega⟩
    · rw [if_neg hskip]
      split
      next j hfind =>
        split
        next hget =>
          obtain ⟨h1, h2, h3⟩ := ih (i + 1) open_set nodes hinv hidx hgof hg0
          exact ⟨h1, h2, by omega⟩
        next key data hget =>
          by_cases hlt : g_score +
              neighbor_cost settings node_heading all_options i neighbor <
              data.g_score
          · rw [if_pos hlt]
            obtain ⟨hj, -⟩ := List.getElem?_eq_some_iff.mp hget
            have htent : 0 < g_score +
                neighbor_cost settings node_heading all_options i neighbor := by
              linarith
            have hdg : gOf nodes j = data.g_score :=
              gOf_eq nodes j (key, data) hget
            have hj0 : j ≠ 0 := by
              intro hz
              subst hz
              obtain ⟨d0, hd0, hsent, hg0d⟩ := hinv.1
              rw [hd0] at hget
              cases hget
              rw [hg0d] at hlt
              linarith
            have hjidx : j ≠ index := by
              intro hz
              subst hz
              rw [hdg] at hgof
              linarith
            have hgset : ∀ c, gOf (nodes.set j (key, ⟨index, g_score +
                neighbor_cost settings node_heading all_options i
                  neighbor⟩)) c =
                if c = j then g_score +
                  neighbor_cost settings node_heading all_options i neighbor
                else gOf nodes c :=
              fun c => gOf_set nodes j _ c hj
            have hinv2 : AstarInv start
                (⟨j, g_score +
                    neighbor_cost settings node_heading all_options i
                      neighbor,
                  g_score +
                    neighbor_cost settings node_heading all_options i
                      neighbor + heuristicFn key⟩ :: open_set)
                (nodes.set j (key, ⟨index, g_score +
                  neighbor_cost settings node_heading all_options i
                    neighbor⟩)) := by
              obtain ⟨⟨d0, hd0, hsent, hg0d⟩, hpos, hchain, hheap⟩ := hinv
              refine ⟨⟨d0, ?_, hsent, hg0d⟩, ?_, ?_, ?_⟩
              · rw [List.getElem?_set_ne hj0]
                exact hd0
              · intro e he2
                rcases List.mem_or_eq_of_mem_set he2 with h | h
                · exact hpos e h
                · rw [h]
                  exact le_of_lt htent
              · intro i2 e hi2 hi20
                by_cases hij : i2 = j
                · subst hij
                  rw [List.getElem?_set_self hj] at hi2
                  cases hi2
                  refine ⟨?_, ?_⟩
                  · show index < (nodes.set i2 _).length
                    rw [List.length_set]
                    exact hidx
                  · show gOf _ index < g_score +
                      neighbor_cost settings node_heading all_options i
                        neighbor
                    rw [hgset index, if_neg (fun h => hjidx h.symm)]
                    linarith
                · rw [List.getElem?_set_ne (fun h => hij h.symm)] at hi2
                  obtain ⟨hcf, hgo⟩ := hchain i2 e hi2 hi20
                  refine ⟨by rw [List.length_set]; exact hcf, ?_⟩
                  rw [hgset e.2.came_from]
                  by_cases hcj : e.2.came_from = j
                  · rw [if_pos hcj]
                    rw [hcj, hdg] at hgo
                    linarith
                  · rw [if_neg hcj]
                    exact hgo
              · intro w hw
                rcases List.mem_cons.mp hw with rfl | hw2
                · refine ⟨?_, (key, ⟨index, g_score +
                      neighbor_cost settings node_heading all_options i
                        neighbor⟩), ?_, ?_⟩
                  · show j < (nodes.set j _).length
                    rw [List.length_set]
                    exact hj
                  · exact List.getElem?_set_self hj
                  · exact le_refl _
                · obtain ⟨hwi, e, hwe, hwg⟩ := hheap w hw2
                  refine ⟨by rw [List.length_set]; exact hwi, ?_⟩
                  by_cases hwj : w.index = j
                  · refine ⟨(key, ⟨index, g_score +
                        neighbor_cost settings node_heading all_options i
                          neighbor⟩), ?_, ?_⟩
                    · rw [hwj]
                      exact List.getElem?_set_self hj
                    · rw [hwj, hget] at hwe
                      cases hwe
                      have hwg2 : data.g_score ≤ w.g_score := hwg
                      show g_score + neighbor_cost settings node_heading
                        all_options i neighbor ≤ w.g_score
                      linarith
                  · refine ⟨e, ?_, hwg⟩
                    rw [List.getElem?_set_ne (fun h => hwj h.symm)]
                    exact hwe
            have hgof2 : gOf (nodes.set j (key, ⟨index, g_score +
                neighbor_cost settings node_heading all_options i
                  neighbor⟩)) index ≤ g_score := by
              rw [hgset index, if_neg (fun h => hjidx h.symm)]
              exact hgof
            obtain ⟨h1, h2, h3⟩ := ih (i + 1) _ _ hinv2
              (by rw [List.length_set]; exact hidx) hgof2 hg0
            rw [List.length_set] at h2 h3
            exact ⟨h1, h2, by omega⟩
          · rw [if_neg hlt]
            obtain ⟨h1, h2, h3⟩ := ih (i + 1) open_set nodes hinv hidx hgof
              hg0
            exact ⟨h1, h2, by omega⟩
      next hfind =>
        have htent : 0 < g_score +
            neighbor_cost settings node_heading all_options i neighbor := by
          linarith
        have hpos0 : 0 < nodes.length :=
          Nat.lt_of_le_of_lt (Nat.zero_le index) hidx
        have hlen_app : (nodes ++
            [((⟨neighbor.pano, neighbor.heading⟩ : NodeIdent Loc),
              (⟨index, g_score + neighbor_cost settings node_heading
                all_options i neighbor⟩ : NodeData))]).length =
            nodes.length + 1 := by
          simp
        have hinv2 : AstarInv start
            (⟨nodes.length, g_score +
                neighbor_cost settings node_heading all_options i neighbor,
              g_score +
                neighbor_cost settings node_heading all_options i neighbor +
                heuristicFn ⟨neighbor.pano, neighbor.heading⟩⟩ :: open_set)
            (nodes ++
              [(⟨neighbor.pano, neighbor.heading⟩,
                ⟨index, g_score + neighbor_cost settings node_heading
                  all_options i neighbor⟩)]) := by
          obtain ⟨⟨d0, hd0, hsent, hg0d⟩, hpos, hchain, hheap⟩ := hinv
          refine ⟨⟨d0, ?_, hsent, hg0d⟩, ?_, ?_, ?_⟩
          · rw [List.getElem?_append_left hpos0]
            exact hd0
          · intro e he2
            rcases List.mem_append.mp he2 with h | h
            · exact hpos e h
            · rw [List.mem_singleton.mp h]
              exact le_of_lt htent
          · intro i2 e hi2 hi20
            by_cases hlt2 : i2 < nodes.length
            · rw [List.getElem?_append_left hlt2] at hi2
              obtain ⟨hcf, hgo⟩ := hchain i2 e hi2 hi20
              refine ⟨by rw [hlen_app]; omega, ?_⟩
              rw [gOf_append_left nodes _ e.2.came_from hcf]
              exact hgo
            · by_cases hi2e : i2 = nodes.length
              · subst hi2e
                rw [List.getElem?_concat_length] at hi2
                cases hi2
                refine ⟨?_, ?_⟩
                · show index < (nodes ++ _).length
                  rw [hlen_app]
                  omega
                · show gOf _ index < g_score +
                    neighbor_cost settings node_heading all_options i
                      neighbor
                  rw [gOf_append_left nodes _ index hidx]
                  linarith
              · have hz : (nodes ++
                    [((⟨neighbor.pano, neighbor.heading⟩ : NodeIdent Loc),
                      (⟨index, g_score + neighbor_cost settings node_heading
                        all_options i neighbor⟩ : NodeData))])[i2]? =
                    none :=
                  List.getElem?_eq_none (by rw [hlen_app]; omega)
                rw [hz] at hi2
                cases hi2
          · intro w hw
            rcases List.mem_cons.mp hw with rfl | hw2
            · refine ⟨?_, (⟨neighbor.pano, neighbor.heading⟩,
                  ⟨index, g_score + neighbor_cost settings node_heading
                    all_options i neighbor⟩), ?_, ?_⟩
              · show nodes.length < (nodes ++ _).length
                rw [hlen_app]
                omega
              · exact List.getElem?_concat_length _ _
              · exact le_refl _
            · obtain ⟨hwi, e, hwe, hwg⟩ := hheap w hw2
              exact ⟨by rw [hlen_app]; omega, e,
                by rw [List.getElem?_append_left hwi]; exact hwe, hwg⟩
        obtain ⟨h1, h2, h3⟩ := ih (i + 1) _ _ hinv2
          (by rw [hlen_app]; omega)
          (by rw [gOf_append_left nodes _ index hidx]; exact hgof)
          hg0
        rw [hlen_app] at h2 h3
        exact ⟨h1, by omega, by omega⟩

private lemma astar_loop_head {Loc : Type}
    (base : Pano Loc → ℚ → BasePanoOptionsRes Loc)
    (heuristicFn : NodeIdent Loc → ℚ) (isGoalFn : NodeIdent Loc → Bool)
    (approxDistSqrFn : Loc → Loc → ℚ) (settings : PathSettings)
    (start : NodeIdent Loc) (B : Nat)
    (hB : ∀ p h, ((base p h).options).length ≤ B) :
    ∀ (fuel : Nat) (open_set : List WeightedNode)
      (nodes : List (NodeIdent Loc × NodeData)) (allow : Bool) (tc : Nat)
      (route : List (NodeIdent Loc)) (tc2 : Nat),
      AstarInv start open_set nodes →
      nodes.length + fuel * B ≤ SENTINEL →
      astar_loop base heuristicFn isGoalFn approxDistSqrFn settings fuel
        open_set nodes allow tc = (some route, tc2) →
      route.head? = some start := by
  intro fuel
  induction fuel with
  | zero =>
    intro open_set nodes allow tc route tc2 hinv hlen h
    rw [astar_loop] at h
    exact Option.noConfusion (congrArg Prod.fst h)
  | succ fuel ih =>
    intro open_set nodes allow tc route tc2 hinv hlen h
    rw [Nat.succ_mul] at hlen
    rw [astar_loop] at h
    split at h
    · exact Option.noConfusion (congrArg Prod.fst h)
    next wn open_rest hpop =>
      split at h
      · exact Option.noConfusion (congrArg Prod.fst h)
      next node node_data hget =>
        have hwn : wn ∈ open_set := (popMin_mem open_set wn open_rest hpop).1
        have hsub := (popMin_mem open_set wn open_rest hpop).2
        obtain ⟨hwi, e, hwe, hwg⟩ := hinv.2.2.2 wn hwn
        rw [hwe] at hget
        cases hget
        by_cases hgoal : isGoalFn node = true
        · rw [if_pos hgoal] at h
          injection h with h1 h2
          obtain ⟨d0, hd0, hsent, -⟩ := hinv.1
          obtain ⟨l, hl, hh⟩ := reconstruct_path_head start nodes
            ⟨d0, hd0, hsent⟩ hinv.2.2.1 (by omega) wn.index hwi
          rw [h1] at hl
          cases hl
          exact hh
        · rw [if_neg hgoal] at h
          have hinv_rest : AstarInv start open_rest nodes :=
            AstarInv_sub start open_set open_rest nodes hinv hsub
          by_cases hstale : wn.g_score > node_data.g_score
          · rw [if_pos hstale] at h
            exact ih open_rest nodes allow tc route tc2 hinv_rest
              (by omega) h
          · rw [if_neg hstale] at h
            have hwg2 : node_data.g_score ≤ wn.g_score := hwg
            have hgofw : gOf nodes wn.index ≤ wn.g_score := by
              rw [gOf_eq nodes wn.index (node, node_data) hwe]
              exact hwg2
            have hg0w : 0 ≤ wn.g_score := by
              have hmem : (node, node_data) ∈ nodes := List.getElem?_mem hwe
              have h4 : (0 : ℚ) ≤ node_data.g_score :=
                hinv.2.1 (node, node_data) hmem
              linarith
            have hrel := astar_relax_inv heuristicFn approxDistSqrFn
              settings start wn.index wn.g_score node.pano.loc node.heading
              (get_options base node.pano node.heading allow).options
              (get_options base node.pano node.heading allow).options 0
              open_rest nodes hinv_rest hwi hgofw hg0w
            have hoptlen := get_options_length_le base B hB node.pano
              node.heading allow
            refine ih _ _ _ _ route tc2 hrel.1 ?_ h
            have h5 := hrel.2.2
            omega

end C2Helpers

/-- C2: every route returned by `astar` begins with the start `NodeIdent`.
The node map keeps the `u32::MAX` sentinel parent only at index 0 (the
start node, whose g-score is 0); every other entry's `came_from` is a
valid index of a previously inserted node whose g-score is strictly
smaller, so `came_from` chains are acyclic and terminate at the start,
and `reconstruct_path` produces a path whose first element is the start.
`B` bounds the branching of the options engine, and the fuel bound keeps
the node-map size below the sentinel (as in the deployed program, whose
node count stays far below `u32::MAX`). -/
theorem C2_astar_route_starts_at_start {Loc : Type}
    (base : Pano Loc → ℚ → BasePanoOptionsRes Loc)
    (heuristicFn : NodeIdent Loc → ℚ) (isGoalFn : NodeIdent Loc → Bool)
    (approxDistSqrFn : Loc → Loc → ℚ) (settings : PathSettings)
    (start : NodeIdent Loc) (fuel B : Nat)
    (hB : ∀ p h, ((base p h).options).length ≤ B)
    (hfuel : 1 + fuel * B ≤ SENTINEL)
    (route : List (NodeIdent Loc)) (tc : Nat)
    (hrun : astar base heuristicFn isGoalFn approxDistSqrFn settings start
      fuel = (some route, tc)) :
    route.head? = some start := by
  rw [astar] at hrun
  have hinv0 : AstarInv start [⟨0, 0, 0⟩] [(start, ⟨SENTINEL, 0⟩)] := by
    refine ⟨⟨⟨SENTINEL, 0⟩, rfl, rfl, rfl⟩, ?_, ?_, ?_⟩
    · intro e he
      rw [List.mem_singleton.mp he]
    · intro i e hi hi0
      rcases i with _ | i
      · exact absurd rfl hi0
      · simp at hi
    · intro w hw
      rw [List.mem_singleton.mp hw]
      exact ⟨by norm_num, (start, ⟨SENTINEL, 0⟩), rfl, le_refl 0⟩
  exact astar_loop_head base heuristicFn isGoalFn approxDistSqrFn settings
    start B hB fuel [⟨0, 0, 0⟩] [(start, ⟨SENTINEL, 0⟩)] true 0 route tc
    hinv0 (by simpa using hfuel) hrun

/-- Witness for C2 at a concrete degenerate search over `Loc = Unit`: no
options, a goal test that accepts immediately, fuel 1 and branching bound
0; the returned route is the one-element path at the start node, whose
head is the start. -/
theorem C2_witness :
    astar (fun _ _ => (⟨[]⟩ : BasePanoOptionsRes Unit)) (fun _ => 0)
        (fun _ => true) (fun _ _ => 0) ⟨false, 0⟩ ⟨⟨0, ()⟩, 0⟩ 1 =
      (some [⟨⟨0, ()⟩, 0⟩], 0) ∧
    ([(⟨⟨0, ()⟩, 0⟩ : NodeIdent Unit)]).head? = some ⟨⟨0, ()⟩, 0⟩ :=
  ⟨rfl,
    C2_astar_route_starts_at_start (fun _ _ => ⟨[]⟩) (fun _ => 0)
      (fun _ => true) (fun _ _ => 0) ⟨false, 0⟩ ⟨⟨0, ()⟩, 0⟩ 1 0
      (fun _ _ => Nat.le_refl 0) (by decide) [⟨⟨0, ()⟩, 0⟩] 0 rfl⟩

/-! ### C1: the planar underestimate is below the haversine distance

The analytic content: on the grid of the claim the latitude stays in
`[20°, 59.09°]`, where `tan θ ≤ √3`, and the displacement angles stay
below `0.1° ≈ 0.001746 rad`.  The chain of bounds is
`4 sin²(t/2) ≥ t² (1 - t²/8)`, `cos θ₂ ≥ cos θ₁ (1 - x²/2) - x sin θ₁`,
`sin θ₁ ≤ √3 cos θ₁ ≤ 1.7320509 cos θ₁`, `arcsin t ≥ t`, and a final
polynomial inequality whose discriminant is negative on the grid. -/

section C1Helpers

private lemma sin_cubic_lower (t : ℝ) (h0 : 0 ≤ t) (h1 : t ≤ 1) :
    t - t ^ 3 / 4 ≤ Real.sin t := by
  rcases eq_or_lt_of_le h0 with h | h
  · rw [← h]
    norm_num
  · exact le_of_lt (Real.sin_gt_sub_cube h h1)

private lemma sin_sq_half_lower (t : ℝ) (h0 : 0 ≤ t) (h1 : t ≤ 1) :
    t ^ 2 - t ^ 4 / 8 ≤ 4 * Real.sin (t / 2) ^ 2 := by
  have hs : t / 2 - (t / 2) ^ 3 / 4 ≤ Real.sin (t / 2) :=
    sin_cubic_lower _ (by linarith) (by linarith)
  have ht2 : t ^ 2 ≤ 1 := by nlinarith
  have ha0 : 0 ≤ t / 2 - (t / 2) ^ 3 / 4 := by
    nlinarith [mul_nonneg h0 (sub_nonneg.mpr ht2)]
  nlinarith [hs, ha0, sq_nonneg (t * t * t)]

private lemma cos_shift_lower (θ1 θ2 x : ℝ) (hδ : |θ2 - θ1| ≤ x)
    (hx3 : x ≤ 3) (hc0 : 0 ≤ Real.cos θ1) (hs0 : 0 ≤ Real.sin θ1) :
    Real.cos θ1 * (1 - x ^ 2 / 2) - Real.sin θ1 * x ≤ Real.cos θ2 := by
  have hπ3 := Real.pi_gt_three
  have hδ2 := abs_le.mp hδ
  have hx0 : 0 ≤ x := le_trans (abs_nonneg _) hδ
  have hδsq : (θ2 - θ1) ^ 2 ≤ x ^ 2 := sq_le_sq' hδ2.1 hδ2.2
  have hcosδ : 1 - x ^ 2 / 2 ≤ Real.cos (θ2 - θ1) :=
    le_trans (by linarith) Real.one_sub_sq_div_two_le_cos
  have hsinδ : Real.sin (θ2 - θ1) ≤ x := by
    rcases le_or_lt 0 (θ2 - θ1) with h | h
    · exact le_trans (Real.sin_le h) hδ2.2
    · have hneg : 0 ≤ Real.sin (-(θ2 - θ1)) :=
        Real.sin_nonneg_of_nonneg_of_le_pi (by linarith) (by linarith)
      rw [Real.sin_neg] at hneg
      linarith
  have key : Real.cos θ2 =
      Real.cos θ1 * Real.cos (θ2 - θ1) -
        Real.sin θ1 * Real.sin (θ2 - θ1) := by
    rw [← Real.cos_add]
    congr 1
    ring
  have h1 : Real.cos θ1 * (1 - x ^ 2 / 2) ≤
      Real.cos θ1 * Real.cos (θ2 - θ1) :=
    mul_le_mul_of_nonneg_left hcosδ hc0
  have h2 : Real.sin θ1 * Real.sin (θ2 - θ1) ≤ Real.sin θ1 * x :=
    mul_le_mul_of_nonneg_left hsinδ hs0
  linarith [key]

private lemma c1_poly (x y c : ℝ) (hx0 : 0 ≤ x) (hxB : x ≤ 0.0017453295)
    (hy0 : 0 ≤ y) (hyB : y ≤ 0.0017453295) (hc0 : 0 ≤ c) (hc1 : c ≤ 1) :
    0.999 ^ 2 * (x ^ 2 + y ^ 2 * c ^ 2) ≤
      (x ^ 2 - x ^ 4 / 8) +
        c ^ 2 * (1 - x ^ 2 / 2 - 1.7320509 * x) * (y ^ 2 - y ^ 4 / 8) := by
  have hx2B : x ^ 2 ≤ 0.0017453295 ^ 2 := by nlinarith
  have hy2B : y ^ 2 ≤ 0.0017453295 ^ 2 := by nlinarith
  have hv0 : 0 ≤ c ^ 2 * y ^ 2 := by positivity
  have hvB : c ^ 2 * y ^ 2 ≤ 0.0017453295 ^ 2 := by
    nlinarith [sq_nonneg c, sq_nonneg y]
  have hj1 : 0 ≤ c ^ 2 * x ^ 2 * y ^ 4 := by positivity
  have hj2 : 0 ≤ c ^ 2 * x * y ^ 4 := by positivity
  nlinarith [sq_nonneg (0.0039 * x - 1.7320509 * (c ^ 2 * y ^ 2)),
    mul_nonneg hv0 (sub_nonneg.mpr hvB),
    mul_nonneg (sub_nonneg.mpr hx2B) (sq_nonneg x),
    mul_nonneg (sub_nonneg.mpr hy2B) hv0,
    mul_nonneg (sub_nonneg.mpr hx2B) hv0,
    sq_nonneg x, hv0, hj1, hj2, mul_nonneg hx0 hv0]

set_option maxHeartbeats 1000000 in
private lemma c1_core (θ1 θ2 x y : ℝ)
    (hθ1l : 20 * (Real.pi / 180) ≤ θ1) (hθ1u : θ1 ≤ 59 * (Real.pi / 180))
    (hδ : |θ2 - θ1| ≤ x) (hx0 : 0 ≤ x) (hxB : x ≤ Real.pi / 1800)
    (hy0 : 0 ≤ y) (hyB : y ≤ Real.pi / 1800) :
    0.999 ^ 2 * (x ^ 2 + y ^ 2 * Real.cos θ1 ^ 2) ≤
      4 * Real.sin (x / 2) ^ 2 +
        4 * Real.cos θ1 * Real.cos θ2 * Real.sin (y / 2) ^ 2 := by
  have hπl := Real.pi_gt_d6
  have hπu := Real.pi_lt_d6
  have hxB2 : x ≤ 0.0017453295 := by linarith
  have hyB2 : y ≤ 0.0017453295 := by linarith
  have hθ1a : 0 < θ1 := by linarith
  have hθ1b : θ1 < Real.pi / 3 := by linarith
  have hc_pos : 0 < Real.cos θ1 :=
    Real.cos_pos_of_mem_Ioo ⟨by linarith, by linarith⟩
  have hc1 : Real.cos θ1 ≤ 1 := Real.cos_le_one θ1
  have hs0 : 0 ≤ Real.sin θ1 :=
    Real.sin_nonneg_of_nonneg_of_le_pi (le_of_lt hθ1a) (by linarith)
  have hs1 : Real.sin θ1 ≤ 1 := Real.sin_le_one θ1
  have hsin_le : Real.sin θ1 ≤ Real.sqrt 3 / 2 := by
    rw [← Real.sin_pi_div_three]
    exact Real.sin_le_sin_of_le_of_le_pi_div_two (by linarith) (by linarith)
      (le_of_lt hθ1b)
  have hcos_ge : 1 / 2 ≤ Real.cos θ1 := by
    rw [← Real.cos_pi_div_three]
    exact Real.cos_le_cos_of_nonneg_of_le_pi (le_of_lt hθ1a) (by linarith)
      (le_of_lt hθ1b)
  have hsqrt3 : Real.sqrt 3 ≤ 1.7320509 := by
    nlinarith [Real.sq_sqrt (show (0:ℝ) ≤ 3 by norm_num), Real.sqrt_nonneg 3]
  have hsc : Real.sin θ1 ≤ 1.7320509 * Real.cos θ1 := by linarith
  have hcos2 : Real.cos θ1 * (1 - x ^ 2 / 2) - Real.sin θ1 * x ≤
      Real.cos θ2 :=
    cos_shift_lower θ1 θ2 x hδ (by linarith) (le_of_lt hc_pos) hs0
  have hx2tiny : x ^ 2 ≤ 0.0017453295 ^ 2 := by
    nlinarith [mul_nonneg (sub_nonneg.mpr hxB2) hx0]
  have hsx_le : Real.sin θ1 * x ≤ x := by
    nlinarith [mul_nonneg hx0 (sub_nonneg.mpr hs1)]
  have hcx2 : Real.cos θ1 * x ^ 2 ≤ x ^ 2 := by
    nlinarith [mul_nonneg (sq_nonneg x) (sub_nonneg.mpr hc1)]
  have hcos2_pos : 0 ≤ Real.cos θ2 := by
    linarith [hcos2, hsx_le, hcx2, hcos_ge, hx2tiny]
  have hA : x ^ 2 - x ^ 4 / 8 ≤ 4 * Real.sin (x / 2) ^ 2 :=
    sin_sq_half_lower x hx0 (by linarith)
  have hBB : y ^ 2 - y ^ 4 / 8 ≤ 4 * Real.sin (y / 2) ^ 2 :=
    sin_sq_half_lower y hy0 (by linarith)
  have hpoly := c1_poly x y (Real.cos θ1) hx0 hxB2 hy0 hyB2
    (le_of_lt hc_pos) hc1
  have hy2tiny : y ^ 2 ≤ 0.0017453295 ^ 2 := by
    nlinarith [mul_nonneg (sub_nonneg.mpr hyB2) hy0]
  have hq0 : 0 ≤ y ^ 2 - y ^ 4 / 8 := by
    nlinarith [mul_nonneg (sq_nonneg y) (sub_nonneg.mpr hy2tiny)]
  have hstep1 : Real.cos θ1 * (1 - x ^ 2 / 2 - 1.7320509 * x) ≤
      Real.cos θ2 := by
    have hp : 0 ≤ (1.7320509 * Real.cos θ1 - Real.sin θ1) * x :=
      mul_nonneg (sub_nonneg.mpr hsc) hx0
    nlinarith [hcos2, hp]
  have hccos2 : 0 ≤ Real.cos θ1 * Real.cos θ2 :=
    mul_nonneg (le_of_lt hc_pos) hcos2_pos
  have hstep2 := mul_le_mul_of_nonneg_left hstep1
    (mul_nonneg (le_of_lt hc_pos) hq0)
  have hstep3 : Real.cos θ1 * Real.cos θ2 * (y ^ 2 - y ^ 4 / 8) ≤
      Real.cos θ1 * Real.cos θ2 * (4 * Real.sin (y / 2) ^ 2) :=
    mul_le_mul_of_nonneg_left hBB hccos2
  linarith [hpoly, hA, hstep2, hstep3]

private lemma arcsin_sqrt_sq_le (h : ℝ) (h0 : 0 ≤ h) (h1 : h ≤ 1) :
    4 * h ≤ (2 * Real.arcsin (Real.sqrt h)) ^ 2 := by
  have hs0 : 0 ≤ Real.sqrt h := Real.sqrt_nonneg h
  have hs1 : Real.sqrt h ≤ 1 := Real.sqrt_le_one.mpr h1
  have ha0 : 0 ≤ Real.arcsin (Real.sqrt h) := Real.arcsin_nonneg.mpr hs0
  have hsa : Real.sqrt h ≤ Real.arcsin (Real.sqrt h) := by
    have hle := Real.sin_le ha0
    rw [Real.sin_arcsin (by linarith) hs1] at hle
    exact hle
  have hsq := Real.sq_sqrt h0
  nlinarith [hsa, hs0, hsq]

private lemma sin_sq_half_abs (t : ℝ) :
    Real.sin (|t| / 2) ^ 2 = Real.sin (t / 2) ^ 2 := by
  rcases abs_cases t with ⟨h, -⟩ | ⟨h, -⟩
  · rw [h]
  · rw [h, neg_div, Real.sin_neg, neg_sq]

end C1Helpers

set_option maxHeartbeats 1000000 in
/-- C1: on the grid of integer-degree locations with latitude in `20..59`,
longitude in `-80..-41`, and offsets `k/100`, `j/100` degrees with
`k, j ∈ -10..9`, the planar `underestimate_distance_sqr` (taken with
`a.calculate_lng_m_per_degree()`) is at most the square of the haversine
`distance`: the 0.999-scaled planar distance is an admissible lower bound
over this grid. -/
theorem C1_underestimate_le_haversine_sq (lat lng k j : ℤ)
    (hlat : 20 ≤ lat ∧ lat ≤ 59) (_hlng : -80 ≤ lng ∧ lng ≤ -41)
    (hk : -10 ≤ k ∧ k ≤ 9) (hj : -10 ≤ j ∧ j ≤ 9) :
    Math.underestimate_distance_sqr (Location.new_deg (lat : ℝ) (lng : ℝ))
      (Location.new_deg ((lat : ℝ) + (k : ℝ) / 100)
        ((lng : ℝ) + (j : ℝ) / 100))
      ((Location.new_deg (lat : ℝ) (lng : ℝ)).calculate_lng_m_per_degree) ≤
      Math.distance (Location.new_deg (lat : ℝ) (lng : ℝ))
        (Location.new_deg ((lat : ℝ) + (k : ℝ) / 100)
          ((lng : ℝ) + (j : ℝ) / 100)) ^ 2 := by
  have hπ0 := Real.pi_pos
  have hπl := Real.pi_gt_d6
  have hπu := Real.pi_lt_d6
  have hlat20 : (20 : ℝ) ≤ (lat : ℝ) := by exact_mod_cast hlat.1
  have hlat59 : (lat : ℝ) ≤ 59 := by exact_mod_cast hlat.2
  have hkl : (-10 : ℝ) ≤ (k : ℝ) := by exact_mod_cast hk.1
  have hku : (k : ℝ) ≤ 9 := by exact_mod_cast hk.2
  have hjl : (-10 : ℝ) ≤ (j : ℝ) := by exact_mod_cast hj.1
  have hju : (j : ℝ) ≤ 9 := by exact_mod_cast hj.2
  have hkabs : |(k : ℝ)| ≤ 10 := by
    rw [abs_le]
    constructor <;> linarith
  have hjabs : |(j : ℝ)| ≤ 10 := by
    rw [abs_le]
    constructor <;> linarith
  have hx0 : 0 ≤ |(k : ℝ) * (Real.pi / 18000)| := abs_nonneg _
  have hy0 : 0 ≤ |(j : ℝ) * (Real.pi / 18000)| := abs_nonneg _
  have hxB : |(k : ℝ) * (Real.pi / 18000)| ≤ Real.pi / 1800 := by
    rw [abs_mul, abs_of_pos (show (0:ℝ) < Real.pi / 18000 by positivity)]
    have h10 := mul_le_mul_of_nonneg_right hkabs
      (show (0:ℝ) ≤ Real.pi / 18000 by positivity)
    linarith
  have hyB : |(j : ℝ) * (Real.pi / 18000)| ≤ Real.pi / 1800 := by
    rw [abs_mul, abs_of_pos (show (0:ℝ) < Real.pi / 18000 by positivity)]
    have h10 := mul_le_mul_of_nonneg_right hjabs
      (show (0:ℝ) ≤ Real.pi / 18000 by positivity)
    linarith
  have hθ1l : 20 * (Real.pi / 180) ≤ (lat : ℝ) * (Real.pi / 180) :=
    mul_le_mul_of_nonneg_right hlat20 (by positivity)
  have hθ1u : (lat : ℝ) * (Real.pi / 180) ≤ 59 * (Real.pi / 180) :=
    mul_le_mul_of_nonneg_right hlat59 (by positivity)
  have hδ : |((lat : ℝ) + (k : ℝ) / 100) * (Real.pi / 180) -
      (lat : ℝ) * (Real.pi / 180)| ≤ |(k : ℝ) * (Real.pi / 18000)| := by
    rw [show ((lat : ℝ) + (k : ℝ) / 100) * (Real.pi / 180) -
      (lat : ℝ) * (Real.pi / 180) = (k : ℝ) * (Real.pi / 18000) by ring]
  have hcore := c1_core ((lat : ℝ) * (Real.pi / 180))
    (((lat : ℝ) + (k : ℝ) / 100) * (Real.pi / 180))
    |(k : ℝ) * (Real.pi / 18000)| |(j : ℝ) * (Real.pi / 18000)|
    hθ1l hθ1u hδ hx0 hxB hy0 hyB
  rw [sin_sq_half_abs ((k : ℝ) * (Real.pi / 18000)),
    sin_sq_half_abs ((j : ℝ) * (Real.pi / 18000)), sq_abs, sq_abs] at hcore
  have hθ2l : 0 < ((lat : ℝ) + (k : ℝ) / 100) * (Real.pi / 180) := by
    nlinarith
  have hθ2u : ((lat : ℝ) + (k : ℝ) / 100) * (Real.pi / 180) <
      Real.pi / 2 := by nlinarith
  have hc2_pos : 0 ≤ Real.cos (((lat : ℝ) + (k : ℝ) / 100) *
      (Real.pi / 180)) :=
    le_of_lt (Real.cos_pos_of_mem_Ioo ⟨by linarith, hθ2u⟩)
  have hc1_pos : 0 < Real.cos ((lat : ℝ) * (Real.pi / 180)) :=
    Real.cos_pos_of_mem_Ioo ⟨by linarith, by linarith⟩
  set H := Real.sin ((k : ℝ) * (Real.pi / 18000) / 2) ^ 2 +
    Real.cos ((lat : ℝ) * (Real.pi / 180)) *
      Real.cos (((lat : ℝ) + (k : ℝ) / 100) * (Real.pi / 180)) *
      Real.sin ((j : ℝ) * (Real.pi / 18000) / 2) ^ 2 with hHdef
  have hH0 : 0 ≤ H :=
    add_nonneg (sq_nonneg _)
      (mul_nonneg (mul_nonneg (le_of_lt hc1_pos) hc2_pos) (sq_nonneg _))
  have hH1 : H ≤ 1 := by
    have h1 := Real.sin_sq_le_sq (x := (k : ℝ) * (Real.pi / 18000) / 2)
    have h2 := Real.sin_sq_le_sq (x := (j : ℝ) * (Real.pi / 18000) / 2)
    have hcc : Real.cos ((lat : ℝ) * (Real.pi / 180)) *
        Real.cos (((lat : ℝ) + (k : ℝ) / 100) * (Real.pi / 180)) ≤ 1 :=
      mul_le_one₀ (Real.cos_le_one _) hc2_pos (Real.cos_le_one _)
    have hk2a : (k : ℝ) ^ 2 ≤ 100 := by nlinarith
    have hj2a : (j : ℝ) ^ 2 ≤ 100 := by nlinarith
    have hπ2 : Real.pi ^ 2 ≤ 9.8696067 := by
      nlinarith [mul_pos (sub_pos.mpr hπu) hπ0]
    have hkπ : (k : ℝ) ^ 2 * Real.pi ^ 2 ≤ 987 := by
      nlinarith [sq_nonneg Real.pi, sq_nonneg (k : ℝ)]
    have hjπ : (j : ℝ) ^ 2 * Real.pi ^ 2 ≤ 987 := by
      nlinarith [sq_nonneg Real.pi, sq_nonneg (j : ℝ)]
    have hm1 : 0 ≤ (1 - Real.cos ((lat : ℝ) * (Real.pi / 180)) *
        Real.cos (((lat : ℝ) + (k : ℝ) / 100) * (Real.pi / 180))) *
        Real.sin ((j : ℝ) * (Real.pi / 18000) / 2) ^ 2 :=
      mul_nonneg (sub_nonneg.mpr hcc) (sq_nonneg _)
    rw [hHdef]
    nlinarith [h1, h2, hm1, hkπ, hjπ]
  have harc := arcsin_sqrt_sq_le H hH0 hH1
  have hm : (Location.new_deg (lat : ℝ) (lng : ℝ)).calculate_lng_m_per_degree
      = LAT_M_PER_DEGREE * Real.cos ((lat : ℝ) * (Real.pi / 180)) := by
    have h := c6_lat_rad (lat : ℝ) (lng : ℝ)
    unfold Location.lat_rad at h
    unfold Location.calculate_lng_m_per_degree Angle.calculate_lng_m_per_degree
    rw [h]
  have hu : Math.underestimate_distance_sqr
      (Location.new_deg (lat : ℝ) (lng : ℝ))
      (Location.new_deg ((lat : ℝ) + (k : ℝ) / 100)
        ((lng : ℝ) + (j : ℝ) / 100))
      ((Location.new_deg (lat : ℝ) (lng : ℝ)).calculate_lng_m_per_degree) =
      EARTH_RADIUS ^ 2 * (0.999 ^ 2 * (((k : ℝ) * (Real.pi / 18000)) ^ 2 +
        ((j : ℝ) * (Real.pi / 18000)) ^ 2 *
          Real.cos ((lat : ℝ) * (Real.pi / 180)) ^ 2)) := by
    rw [hm]
    unfold Math.underestimate_distance_sqr LAT_M_PER_DEGREE
    simp only [Location.new_deg, c6_angle_sub_to_deg]
    ring
  have hd : Math.distance (Location.new_deg (lat : ℝ) (lng : ℝ))
      (Location.new_deg ((lat : ℝ) + (k : ℝ) / 100)
        ((lng : ℝ) + (j : ℝ) / 100)) =
      EARTH_RADIUS * (2 * Real.arcsin (Real.sqrt H)) := by
    unfold Math.distance
    rw [c6_lat_rad, c6_lat_rad, c6_lng_rad, c6_lng_rad]
    simp only []
    rw [show ((lat : ℝ) + (k : ℝ) / 100) * (Real.pi / 180) -
      (lat : ℝ) * (Real.pi / 180) = (k : ℝ) * (Real.pi / 18000) by ring]
    rw [show ((lng : ℝ) + (j : ℝ) / 100) * (Real.pi / 180) -
      (lng : ℝ) * (Real.pi / 180) = (j : ℝ) * (Real.pi / 18000) by ring]
  rw [hu, hd]
  have hmain : 0.999 ^ 2 * (((k : ℝ) * (Real.pi / 18000)) ^ 2 +
      ((j : ℝ) * (Real.pi / 18000)) ^ 2 *
        Real.cos ((lat : ℝ) * (Real.pi / 180)) ^ 2) ≤
      (2 * Real.arcsin (Real.sqrt H)) ^ 2 := by
    rw [hHdef] at harc
    linarith [hcore, harc]
  rw [show (EARTH_RADIUS * (2 * Real.arcsin (Real.sqrt H))) ^ 2 =
    EARTH_RADIUS ^ 2 * (2 * Real.arcsin (Real.sqrt H)) ^ 2 by ring]
  exact mul_le_mul_of_nonneg_left hmain (sq_nonneg _)

/-- Witness for C1 at the grid corner `lat = 20, lng = -80, k = j = 0`. -/
theorem C1_witness :
    Math.underestimate_distance_sqr
      (Location.new_deg ((20 : ℤ) : ℝ) (((-80) : ℤ) : ℝ))
      (Location.new_deg ((((20 : ℤ) : ℝ)) + (((0 : ℤ) : ℝ)) / 100)
        ((((-80) : ℤ) : ℝ) + (((0 : ℤ) : ℝ)) / 100))
      ((Location.new_deg ((20 : ℤ) : ℝ)
        (((-80) : ℤ) : ℝ)).calculate_lng_m_per_degree) ≤
      Math.distance (Location.new_deg ((20 : ℤ) : ℝ) (((-80) : ℤ) : ℝ))
        (Location.new_deg ((((20 : ℤ) : ℝ)) + (((0 : ℤ) : ℝ)) / 100)
          ((((-80) : ℤ) : ℝ) + (((0 : ℤ) : ℝ)) / 100)) ^ 2 :=
  C1_underestimate_le_haversine_sq 20 (-80) 0 0
    ⟨by decide, by decide⟩ ⟨by decide, by decide⟩
    ⟨by decide, by decide⟩ ⟨by decide, by decide⟩
